import Mathlib

/-!
patum: pattern terms, matchers and match resolution.

A shallow embedding of the core of the `ptm` pattern-matching library
(`predicate.h`, `wildcard.h`, `tuple.h`, `matcher.h`, `pattern.h`, `type_traits.h`
and `match.h`).

Conventions of the embedding.

* The library is generic; what the C++ templates decide from the static types of
  their arguments (`if constexpr`, `requires`) is decided here from data carried by
  the embedded objects: a capability a type has is a field holding `some`
  implementation, a capability it lacks is `none`.
* User code (predicates, comparison operators, result callables) may read and
  write caller state. That state is an arbitrary type `σ`, passed explicitly.
* A tuple is a list; `std::get<I>` is `List.get?`, and an index out of range (an
  ill-formed program) is `none`.
* The interpreter records what it runs: the positions whose pattern term was
  evaluated, and the arms whose result callable was invoked.
-/

namespace ptm

/-! ## Static types (type_traits.h) -/

/-- Static C++ types that occur as result types of match arms. `void` is the type of
a call that returns nothing, `not_found_t` the marker type of `type_traits.h`, and
`user id` any other class type. -/
inductive Ty
  | void
  | not_found_t
  | bool
  | char
  | unsigned_char
  | short
  | unsigned_short
  | int
  | unsigned_int
  | long
  | unsigned_long
  | long_long
  | unsigned_long_long
  | double
  | string
  | string_view
  | c_string
  | user (id : Nat)
  deriving DecidableEq, Repr

/-- The facilities of the host language the library relies on for result types.
`std_common_type Ts` is `std::common_type_t<Ts...>` when that type exists and the
expression `std::common_type_t<Ts...>()` is well formed (the test made by
`common_type_or`), and `none` otherwise. `convert src dst v` is the value of type
`dst` constructed from the value `v` of type `src` (what `optional<dst>::emplace`
does with an argument of type `src`). -/
structure TypeEnv (V : Type) where
  std_common_type : List Ty → Option Ty
  convert : Ty → Ty → V → V

/-- `common_type_or<T, Ts...>::type`: the overload `test<Ts...>(nullptr)` returning
`std::common_type_t<Ts...>` is chosen when it is viable, the fallback `T` otherwise. -/
def common_type_or {V : Type} (env : TypeEnv V) (T : Ty) (Ts : List Ty) : Ty :=
  match env.std_common_type Ts with
  | some c => c
  | none => T

/-- `append_type<type_list<Ts...>, T>::type` is `type_list<Ts..., T>`. -/
def append_type (Ts : List Ty) (T : Ty) : List Ty :=
  Ts ++ [T]

/-- `common_type<List>::type`: `not_found_t` for the empty list, otherwise
`common_type_or_t<not_found_t, Ts...>`. -/
def common_type {V : Type} (env : TypeEnv V) : List Ty → Ty
  | [] => Ty.not_found_t
  | T :: Ts => common_type_or env Ty.not_found_t (T :: Ts)

/-- `non_void_common_type<type_list<T, Ts...>>::type`: the recursion of the primary
template, which skips `T` when it is `void` and otherwise appends it to the result
for the tail. -/
def non_void_common_type : List Ty → List Ty
  | [] => []
  | T :: Ts =>
    if T = Ty.void then non_void_common_type Ts
    else append_type (non_void_common_type Ts) T

/-- `non_void_common_type_t<Ts...>`. -/
def non_void_common_type_t {V : Type} (env : TypeEnv V) (Ts : List Ty) : Ty :=
  common_type env (non_void_common_type Ts)

/-! ## Pattern terms and `evaluate_match` (concepts.h, predicate.h) -/

/-- The concept `StringLike` of `concepts.h` for subjects: `string_view s` is
`some` character content when the static type of `s` converts to
`std::string_view`, and `none` otherwise. -/
class StringLike (S : Type) where
  string_view : S → Option String

/-- A pattern term, by what `evaluate_match` can do with it against a subject of
type `S`.

* `invoke` is `some f` exactly when the expression `lhs(rhs)` is well formed with a
  result convertible to `bool`; `f rhs` is then that call followed by the conversion.
* `string_view` is `some` content exactly when the term's type is `StringLike`.
* `equals rhs` is the expression `lhs == rhs`.

A `Term` stands for a term for which `evaluate_match` compiles against the subject:
its call, when it has one, and its `==` are there to be run. A term as it is written,
for which they may not compile, is a `PatternTerm`. -/
structure Term (σ S : Type) where
  invoke : Option (S → σ → Bool × σ)
  string_view : Option String
  equals : S → σ → Bool × σ

/-- `evaluate_match(lhs, rhs)` of `predicate.h`. -/
def evaluate_match {σ S : Type} [StringLike S] (lhs : Term σ S) (rhs : S) (st : σ) : Bool × σ :=
  match lhs.invoke with
  | some f => f rhs st
  | none =>
    match lhs.string_view, StringLike.string_view rhs with
    | some a, some b => (a == b, st)
    | _, _ => lhs.equals rhs st

/-! ## The tuple unpacker (tuple.h) -/

/-- Outcome of a positional check: the boolean, the caller state afterwards, and the
positions (0-based) whose pair was handed to the test, in the order they were. -/
structure Checked (σ : Type) where
  ok : Bool
  state : σ
  evaluated : List Nat

/-- `tuple_unpacker<N>::apply(func, t1, t2)`:
`func(std::get<N - 1>(t1), std::get<N - 1>(t2)) && tuple_unpacker<N - 1>::apply(func, t1, t2)`,
and `true` for `N = 0`. The right operand of `&&` runs only when the left one is
true. -/
def tuple_unpacker.apply {σ A B : Type} (func : A → B → σ → Bool × σ) :
    Nat → List A → List B → σ → Option (Checked σ)
  | 0, _, _, st => some { ok := true, state := st, evaluated := [] }
  | N + 1, t1, t2, st =>
    match t1.get? N, t2.get? N with
    | some x, some y =>
      let r := func x y st
      if r.1 then
        match tuple_unpacker.apply func N t1 t2 r.2 with
        | some c => some { c with evaluated := N :: c.evaluated }
        | none => none
      else some { ok := false, state := r.2, evaluated := [N] }
    | _, _ => none

/-! ## The wildcard (wildcard.h) -/

/-- The six relational operators. -/
inductive RelOp
  | eq
  | ne
  | lt
  | le
  | gt
  | ge
  deriving DecidableEq, Repr

/-- The side of a relational operator on which the wildcard stands. -/
inductive Side
  | left
  | right
  deriving DecidableEq, Repr

/-- The relational friend operators of `wildcard<F>`, in the order of the source:
for each operator first `op(const wildcard&, const T&)` (wildcard on the left), then
`op(const T&, const wildcard&)` (wildcard on the right). The other operand is
ignored by every one of them. -/
def wildcard.compare {T : Type} : RelOp → Side → T → Bool
  | RelOp.eq, Side.left, _ => true
  | RelOp.eq, Side.right, _ => true
  | RelOp.ne, Side.left, _ => false
  | RelOp.ne, Side.right, _ => true
  | RelOp.lt, Side.left, _ => true
  | RelOp.lt, Side.right, _ => true
  | RelOp.le, Side.left, _ => true
  | RelOp.le, Side.right, _ => true
  | RelOp.gt, Side.left, _ => true
  | RelOp.gt, Side.right, _ => true
  | RelOp.ge, Side.left, _ => true
  | RelOp.ge, Side.right, _ => true

/-- The object `_`: `wildcard([]<class U>(const U&) { return true; })`, as a pattern
term. It is invocable on a subject of every type and the call returns `true`; it does
not convert to `std::string_view`; `_ == rhs` is the friend `operator==`. -/
def wildcard.underscore (σ S : Type) : Term σ S where
  invoke := some (fun _ st => (true, st))
  string_view := none
  equals := fun rhs st => (wildcard.compare RelOp.eq Side.left rhs, st)

/-! ## Matchers (matcher.h, pattern.h) -/

/-- A call expression on a stored result, `A` being what it is called with: the call
has static type `void` (`action`) or a static type `type` and a value (`func`). -/
inductive Call (σ A V : Type)
  | action (run : A → σ → σ)
  | func (type : Ty) (run : A → σ → V × σ)

/-- The result bound to a pattern, of static type `T`.

* `type`, `value`: the type `T` and the stored object itself.
* `call0` is `some` exactly when `std::is_invocable_v<T>`, `callN` exactly when
  `std::is_invocable_v<T, U...>` for the subject types `U...`.
* `const_call0`, `const_callN`: the same for `const T`. -/
structure ResultExpr (σ S V : Type) where
  type : Ty
  value : V
  call0 : Option (Call σ Unit V)
  callN : Option (Call σ (List S) V)
  const_call0 : Option (Call σ Unit V)
  const_callN : Option (Call σ (List S) V)

/-- The expression returned by `matcher::get`, before it is evaluated: a call of
type `void`, a call with a value, or the stored object. -/
inductive Got (σ V : Type)
  | action (run : σ → σ)
  | computed (type : Ty) (run : σ → V × σ)
  | stored (type : Ty) (value : V)

/-- The static type of the expression (`decltype`). -/
def Got.type {σ V : Type} : Got σ V → Ty
  | Got.action _ => Ty.void
  | Got.computed t _ => t
  | Got.stored t _ => t

/-- Whether evaluating the expression calls the stored result. -/
def Got.calls {σ V : Type} : Got σ V → Bool
  | Got.action _ => true
  | Got.computed _ _ => true
  | Got.stored _ _ => false

/-- Evaluation of the expression: its value, if it has one, and the state after. -/
def Got.run {σ V : Type} : Got σ V → σ → Option V × σ
  | Got.action run, st => (none, run st)
  | Got.computed _ run, st => (some (run st).1, (run st).2)
  | Got.stored _ v, st => (some v, st)

/-- The call expression `c(a)`. -/
def Call.bind {σ A V : Type} (c : Call σ A V) (a : A) : Got σ V :=
  match c with
  | Call.action run => Got.action (run a)
  | Call.func t run => Got.computed t (run a)

/-- The ref-qualification of the object `get` is called on; it selects one of the
four overloads. -/
inductive Qualifier
  | lvalue
  | rvalue
  | const_lvalue
  | const_rvalue
  deriving DecidableEq, Repr

/-- Whether the overload selected is a `const` one. -/
def Qualifier.is_const : Qualifier → Bool
  | Qualifier.lvalue => false
  | Qualifier.rvalue => false
  | Qualifier.const_lvalue => true
  | Qualifier.const_rvalue => true

/-- `matcher<T, Args...>`: the bound result and the tuple of pattern terms. -/
structure matcher (σ S V : Type) where
  result_ : ResultExpr σ S V
  args_ : List (Term σ S)

/-- `matcher::capture_count`, `sizeof...(Args)`. -/
def matcher.capture_count {σ S V : Type} (m : matcher σ S V) : Nat :=
  m.args_.length

/-- `matcher::check(values_to_test...)`: the tuple unpacker for
`sizeof...(U)` positions over `args_` and the values, with `evaluate_match` as the
test. -/
def matcher.check {σ S V : Type} [StringLike S] (m : matcher σ S V) (values_to_test : List S)
    (st : σ) : Option (Checked σ) :=
  tuple_unpacker.apply (fun x y => evaluate_match x y) values_to_test.length m.args_
    values_to_test st

/-- `matcher::get(values_to_test...)`, the four overloads. Each tries `result_()`,
then `result_(values_to_test...)`, then the stored object; the `const` overloads
test invocability of `const T`. Returning `result_` and `std::move(result_)` denote
the same value. -/
def matcher.get {σ S V : Type} (m : matcher σ S V) (q : Qualifier) (values_to_test : List S) :
    Got σ V :=
  match q with
  | Qualifier.lvalue =>
    match m.result_.call0 with
    | some c => c.bind ()
    | none =>
      match m.result_.callN with
      | some c => c.bind values_to_test
      | none => Got.stored m.result_.type m.result_.value
  | Qualifier.rvalue =>
    match m.result_.call0 with
    | some c => c.bind ()
    | none =>
      match m.result_.callN with
      | some c => c.bind values_to_test
      | none => Got.stored m.result_.type m.result_.value
  | Qualifier.const_lvalue =>
    match m.result_.const_call0 with
    | some c => c.bind ()
    | none =>
      match m.result_.const_callN with
      | some c => c.bind values_to_test
      | none => Got.stored m.result_.type m.result_.value
  | Qualifier.const_rvalue =>
    match m.result_.const_call0 with
    | some c => c.bind ()
    | none =>
      match m.result_.const_callN with
      | some c => c.bind values_to_test
      | none => Got.stored m.result_.type m.result_.value

/-- `match_pattern<Args...>`: the tuple of pattern terms made by `pattern(args...)`. -/
structure match_pattern (σ S : Type) where
  args_ : List (Term σ S)

/-- `pattern(args...)`. -/
def pattern {σ S : Type} (args : List (Term σ S)) : match_pattern σ S :=
  { args_ := args }

/-- `match_pattern::operator=(result)`: the matcher of the pattern and the result. -/
def match_pattern.assign {σ S V : Type} (p : match_pattern σ S) (result : ResultExpr σ S V) :
    matcher σ S V :=
  { result_ := result, args_ := p.args_ }

/-! ## Match resolution (match.h) -/

/-- What the resolution of a match ran, beyond the state it leaves: `evaluated i p`,
the pattern term at position `p` of arm `i` was evaluated against its subject;
`invoked i`, the result callable of arm `i` was called. Arms and positions are
numbered from 0. -/
inductive Event
  | evaluated (arm position : Nat)
  | invoked (arm : Nat)
  deriving DecidableEq, Repr

/-- `compatible_patterns<M...>()`: `(true && ... && (requires { M::capture_count; }))`.
An argument type `M` is given by its `capture_count`, `none` when `M::capture_count`
does not name a member (`M` is not a matcher type, or is a reference type, as deduced
for an argument that is an lvalue). -/
def compatible_patterns (M : List (Option Nat)) : Bool :=
  M.foldl (fun acc m => acc && m.isSome) true

/-- `compatible_patterns_args<M...>(count)`:
`(true && ... && (count == M::capture_count))`. For an argument type without
`capture_count` the comparison is ill formed, which leaves the constraint
unsatisfied. -/
def compatible_patterns_args (M : List (Option Nat)) (count : Nat) : Bool :=
  M.foldl (fun acc m => acc && decide (some count = m)) true

/-- `match_expressions(matcher, expressions)`: `matcher.check(ex...)`. -/
def match_expressions {σ S V : Type} [StringLike S] (m : matcher σ S V) (expressions : List S)
    (st : σ) : Option (Checked σ) :=
  m.check expressions st

/-- `test_expressions(matcher, expressions)`: `matcher.get(ex...)` on a
`const matcher&`. It is used for its type only. -/
def test_expressions {σ S V : Type} (m : matcher σ S V) (expressions : List S) : Got σ V :=
  m.get Qualifier.const_lvalue expressions

/-- Outcome of running the result of an arm: the accumulated result, the state, and
whether the result callable was called. -/
structure Invoked (σ α : Type) where
  result : α
  state : σ
  called : Bool

/-- `invoke_result_expressions(result, matcher, expressions)`: with `m` the copy of
the matcher held by the closure, `std::move(m).get(ex...)` is evaluated; it is
emplaced into `result` unless `decltype(m.get(ex...))` is `void`. -/
def invoke_result_expressions {σ S V : Type} (env : TypeEnv V) (R : Ty) (m : matcher σ S V)
    (expressions : List S) (result : Option V) (st : σ) : Invoked σ (Option V) :=
  if (m.get Qualifier.lvalue expressions).type = Ty.void then
    { result := result
      state := ((m.get Qualifier.rvalue expressions).run st).2
      called := (m.get Qualifier.rvalue expressions).calls }
  else
    match (m.get Qualifier.rvalue expressions).run st with
    | (some v, st1) =>
      { result := some (env.convert (m.get Qualifier.rvalue expressions).type R v)
        state := st1
        called := (m.get Qualifier.rvalue expressions).calls }
    | (none, st1) =>
      { result := result
        state := st1
        called := (m.get Qualifier.rvalue expressions).calls }

/-- `invoke_expressions(matcher, expressions)`: `std::move(m).get(ex...)`, its value
discarded. -/
def invoke_expressions {σ S V : Type} (m : matcher σ S V) (expressions : List S) (result : Unit)
    (st : σ) : Invoked σ Unit :=
  { result := result
    state := ((m.get Qualifier.rvalue expressions).run st).2
    called := (m.get Qualifier.rvalue expressions).calls }

/-- Outcome of the fold over the arms. -/
structure Resolved (σ α : Type) where
  result : α
  state : σ
  trace : List Event

/-- The fold expression of `match_helper::operator()`,
`((match_expressions(matchers, expressions_) && (void(invoke(...)), 1)) || ...)`,
for the arms from number `i` on: the operands of `||` run in order until one is
true, and in each the right operand of `&&` runs only when the check is true. -/
def match_helper.fold {σ S V α : Type} [StringLike S]
    (invoke : matcher σ S V → List S → α → σ → Invoked σ α) (expressions_ : List S) :
    Nat → List (matcher σ S V) → α → σ → Option (Resolved σ α)
  | _, [], result, st => some { result := result, state := st, trace := [] }
  | i, m :: ms, result, st =>
    match match_expressions m expressions_ st with
    | none => none
    | some c =>
      if c.ok then
        let r := invoke m expressions_ result c.state
        some
          { result := r.result
            state := r.state
            trace := c.evaluated.map (Event.evaluated i)
              ++ (if r.called then [Event.invoked i] else []) }
      else
        match match_helper.fold invoke expressions_ (i + 1) ms result c.state with
        | some r => some { r with trace := c.evaluated.map (Event.evaluated i) ++ r.trace }
        | none => none

/-- `match_helper<E...>`: the tuple of subjects of one match. -/
structure match_helper (S : Type) where
  expressions_ : List S

/-- `match(args...)`. -/
def match_ {S : Type} (args : List S) : match_helper S :=
  { expressions_ := args }

/-- The requires-clause of `match_helper::operator()`, for `E` subjects:
`compatible_patterns<M...>() && compatible_patterns_args<M...>(sizeof...(E))
&& sizeof...(M) != 0`. -/
def match_helper.requires_clause (E : Nat) (M : List (Option Nat)) : Bool :=
  compatible_patterns M && compatible_patterns_args M E && (M.length != 0)

/-- What a match call returns: nothing (return type `void`) or a
`std::optional<ReturnType>`. -/
inductive Returned (V : Type)
  | void
  | optional (value : Option V)
  deriving DecidableEq, Repr

/-- Outcome of a match call. -/
structure Outcome (σ V : Type) where
  returned : Returned V
  state : σ
  trace : List Event

/-- The `ReturnType` of `match_helper::operator()`:
`non_void_common_type_t<decltype(test_expressions(matchers, expressions_))...>`. -/
def match_helper.ReturnType {σ S V : Type} (env : TypeEnv V) (h : match_helper S)
    (matchers : List (matcher σ S V)) : Ty :=
  non_void_common_type_t env (matchers.map (fun m => (test_expressions m h.expressions_).type))

/-- `match_helper::operator()(matchers...)`, the matchers being the temporaries
`pattern(...) = result`, so that each `M` is the matcher type itself. A call whose
requires-clause is not satisfied does not compile: `none`. Otherwise, when
`ReturnType` is `not_found_t` the fold runs with `invoke_expressions` and the call
returns nothing; else it runs with `invoke_result_expressions` on an empty
`std::optional<ReturnType>`, which is returned. The pattern terms of the matchers are
`Term`s, for which every `evaluate_match` that the body instantiates compiles; what the
compiler does with the terms as they are written is `match_helper.instantiate`. -/
def match_helper.call {σ S V : Type} [StringLike S] (env : TypeEnv V) (h : match_helper S)
    (matchers : List (matcher σ S V)) (st : σ) : Option (Outcome σ V) :=
  if match_helper.requires_clause h.expressions_.length
      (matchers.map (fun m => some m.capture_count)) then
    if match_helper.ReturnType env h matchers = Ty.not_found_t then
      match match_helper.fold invoke_expressions h.expressions_ 0 matchers () st with
      | some r => some { returned := Returned.void, state := r.state, trace := r.trace }
      | none => none
    else
      match match_helper.fold (invoke_result_expressions env (match_helper.ReturnType env h matchers))
          h.expressions_ 0 matchers none st with
      | some r => some { returned := Returned.optional r.result, state := r.state, trace := r.trace }
      | none => none
  else none

/-- Checking the arms of a list in order from the state `st`, as the fold does, with
every check well formed and false: the state this ends in. `none` when some check
is true (or ill formed). -/
def rejects_all {σ S V : Type} [StringLike S] (expressions_ : List S) :
    List (matcher σ S V) → σ → Option σ
  | [], st => some st
  | m :: ms, st =>
    match match_expressions m expressions_ st with
    | some c => if c.ok then none else rejects_all expressions_ ms c.state
    | none => none

/-! ## Concrete values, terms and results -/

/-- Runtime values of the C++ types used in the examples: integers, booleans,
strings (in any string-like representation), closure objects (by identity), and
`nil`/`cons` for the fields of a product or the elements of a sequence. -/
inductive Value
  | int (n : Int)
  | bool (b : Bool)
  | string (s : String)
  | closure (id : Nat)
  | nil
  | cons (head tail : Value)
  deriving DecidableEq, Repr

instance : StringLike Value where
  string_view := fun v =>
    match v with
    | Value.string s => some s
    | _ => none

/-- A value of a non-callable type used as a pattern term: it cannot be invoked, it
is string-like exactly when it is a string, and `==` is equality of values. -/
def Term.literal {σ : Type} (c : Value) : Term σ Value where
  invoke := none
  string_view := StringLike.string_view c
  equals := fun rhs st => (decide (c = rhs), st)

/-- A result that is a plain value `v` of the non-callable type `t`. -/
def ResultExpr.plain {σ S V : Type} (t : Ty) (v : V) : ResultExpr σ S V where
  type := t
  value := v
  call0 := none
  callN := none
  const_call0 := none
  const_callN := none

/-- A result that is a closure `[...] { ... }` taking no argument (its call operator
is `const`): `self` is the closure object, of type `t`, and `c` its call. -/
def ResultExpr.nullary {σ S V : Type} (t : Ty) (self : V) (c : Call σ Unit V) :
    ResultExpr σ S V where
  type := t
  value := self
  call0 := some c
  callN := none
  const_call0 := some c
  const_callN := none

/-- A result that is a generic closure `[...](auto&&... v) { ... }` called with the
subjects and not callable without argument. -/
def ResultExpr.with_subjects {σ S V : Type} (t : Ty) (self : V) (c : Call σ (List S) V) :
    ResultExpr σ S V where
  type := t
  value := self
  call0 := none
  callN := some c
  const_call0 := none
  const_callN := some c

/-- A type environment in which a non-empty list of one repeated type has that type
as its common type, no other list is given a common type, and construction of a
value from a value changes nothing. -/
def TypeEnv.uniform (V : Type) : TypeEnv V where
  std_common_type := fun Ts =>
    match Ts with
    | [] => none
    | T :: rest => if rest.all (fun U => decide (U = T)) then some T else none
  convert := fun _ _ v => v

/-! ## Example match calls (tests/source/test_patum.cpp) -/

/-- The arm `pattern(c) = r` for integers `c` and `r`, the caller state of type `σ`. -/
def example_value_arm {σ : Type} (c r : Int) : matcher σ Value Value :=
  (pattern [Term.literal (Value.int c)]).assign (ResultExpr.plain Ty.int (Value.int r))

/-- The arms `pattern(10) = 1, pattern(5) = 2, pattern(3) = 3, pattern(_) = 4`. -/
def example_assign_arms : List (matcher Nat Value Value) :=
  [ example_value_arm 10 1,
    example_value_arm 5 2,
    example_value_arm 3 3,
    (pattern [wildcard.underscore Nat Value]).assign (ResultExpr.plain Ty.int (Value.int 4)) ]

/-- The arms of "Simple matcher catch one from all same types", the caller state
being the variable `matched_pattern`:
`pattern(10) = [&](auto&& v) { matched_pattern = 1; }`,
`pattern(5) = [&](auto&& v) { matched_pattern = 2; }`,
`pattern(3) = [&] { matched_pattern = 3; }`, `pattern(_) = [&] { matched_pattern = 4; }`. -/
def example_action_arms : List (matcher Nat Value Value) :=
  [ (pattern [Term.literal (Value.int 10)]).assign
      (ResultExpr.with_subjects (Ty.user 1) (Value.closure 1) (Call.action (fun _ _ => 1))),
    (pattern [Term.literal (Value.int 5)]).assign
      (ResultExpr.with_subjects (Ty.user 2) (Value.closure 2) (Call.action (fun _ _ => 2))),
    (pattern [Term.literal (Value.int 3)]).assign
      (ResultExpr.nullary (Ty.user 3) (Value.closure 3) (Call.action (fun _ _ => 3))),
    (pattern [wildcard.underscore Nat Value]).assign
      (ResultExpr.nullary (Ty.user 4) (Value.closure 4) (Call.action (fun _ _ => 4))) ]

/-- The arms `pattern(10) = [] {}, pattern(5) = [] {}, pattern(3) = [] {},
pattern(_) = 4`. -/
def example_void_arms : List (matcher Nat Value Value) :=
  [ (pattern [Term.literal (Value.int 10)]).assign
      (ResultExpr.nullary (Ty.user 1) (Value.closure 1) (Call.action (fun _ st => st))),
    (pattern [Term.literal (Value.int 5)]).assign
      (ResultExpr.nullary (Ty.user 2) (Value.closure 2) (Call.action (fun _ st => st))),
    (pattern [Term.literal (Value.int 3)]).assign
      (ResultExpr.nullary (Ty.user 3) (Value.closure 3) (Call.action (fun _ st => st))),
    (pattern [wildcard.underscore Nat Value]).assign (ResultExpr.plain Ty.int (Value.int 4)) ]

/-- The arm `pattern(_) = r` for a function object `r` callable both without argument,
returning 1, and with the subject, returning 2. -/
def example_overloaded_arm : matcher Nat Value Value :=
  (pattern [wildcard.underscore Nat Value]).assign
    { type := Ty.user 1
      value := Value.closure 1
      call0 := some (Call.func Ty.int (fun _ st => (Value.int 1, st)))
      callN := some (Call.func Ty.int (fun _ st => (Value.int 2, st)))
      const_call0 := some (Call.func Ty.int (fun _ st => (Value.int 1, st)))
      const_callN := some (Call.func Ty.int (fun _ st => (Value.int 2, st))) }

/-! ## Integer result types (the host language's `std::common_type` and conversions) -/

/-- The standard integer types (`bool` included). -/
def Ty.is_integer : Ty → Bool
  | Ty.bool => true
  | Ty.char => true
  | Ty.unsigned_char => true
  | Ty.short => true
  | Ty.unsigned_short => true
  | Ty.int => true
  | Ty.unsigned_int => true
  | Ty.long => true
  | Ty.unsigned_long => true
  | Ty.long_long => true
  | Ty.unsigned_long_long => true
  | _ => false

/-- Integer conversion rank: `bool` < `char` < `short` < `int` < `long` < `long long`,
a signed type and its unsigned type having the same rank. -/
def Ty.rank : Ty → Nat
  | Ty.bool => 0
  | Ty.char => 1
  | Ty.unsigned_char => 1
  | Ty.short => 2
  | Ty.unsigned_short => 2
  | Ty.int => 3
  | Ty.unsigned_int => 3
  | Ty.long => 4
  | Ty.unsigned_long => 4
  | Ty.long_long => 5
  | Ty.unsigned_long_long => 5
  | _ => 0

/-- Whether an integer type is unsigned (`char` is taken to be signed). -/
def Ty.is_unsigned : Ty → Bool
  | Ty.bool => true
  | Ty.unsigned_char => true
  | Ty.unsigned_short => true
  | Ty.unsigned_int => true
  | Ty.unsigned_long => true
  | Ty.unsigned_long_long => true
  | _ => false

/-- Width in bits of an integer type: 8, 16, 32 and 64 for `char`, `short`, `int` and
`long long`; `long` has `long_bits` bits (64 on LP64 platforms, 32 on LLP64). -/
def Ty.bits (long_bits : Nat) : Ty → Nat
  | Ty.bool => 1
  | Ty.char => 8
  | Ty.unsigned_char => 8
  | Ty.short => 16
  | Ty.unsigned_short => 16
  | Ty.int => 32
  | Ty.unsigned_int => 32
  | Ty.long => long_bits
  | Ty.unsigned_long => long_bits
  | Ty.long_long => 64
  | Ty.unsigned_long_long => 64
  | _ => 0

/-- The unsigned type of the rank of a signed integer type. -/
def Ty.to_unsigned : Ty → Ty
  | Ty.char => Ty.unsigned_char
  | Ty.short => Ty.unsigned_short
  | Ty.int => Ty.unsigned_int
  | Ty.long => Ty.unsigned_long
  | Ty.long_long => Ty.unsigned_long_long
  | t => t

/-- Integral promotion: a type of rank below `int` becomes `int`, which represents
all its values. -/
def integral_promotion (t : Ty) : Ty :=
  if t.rank < Ty.int.rank then Ty.int else t

/-- The usual arithmetic conversions on two promoted integer types: the same type;
else, of two types of the same signedness, the one of greater rank; else the unsigned
type when its rank is not below the signed one's; else the signed type when it
represents every value of the unsigned one; else the unsigned type of the signed
type's rank. -/
def usual_arithmetic_conversions (long_bits : Nat) (a b : Ty) : Ty :=
  if a = b then a
  else if a.is_unsigned = b.is_unsigned then (if a.rank < b.rank then b else a)
  else if a.is_unsigned then
    (if b.rank ≤ a.rank then a
      else if a.bits long_bits < b.bits long_bits then b else b.to_unsigned)
  else
    (if a.rank ≤ b.rank then b
      else if b.bits long_bits < a.bits long_bits then a else a.to_unsigned)

/-- `std::common_type_t<A, B>` as far as integer types go: the type of
`false ? declval<A>() : declval<B>()`, which is `A` when the two are the same type,
and for two different integer types the result of the usual arithmetic conversions
on their promotions. Other pairs are outside this table: `none`. -/
def std_common_type_pair (long_bits : Nat) (a b : Ty) : Option Ty :=
  if a = b then some a
  else if a.is_integer && b.is_integer then
    some (usual_arithmetic_conversions long_bits (integral_promotion a) (integral_promotion b))
  else none

/-- `std::common_type_t<C, Ts...>` for `C` the common type of the types before `Ts`:
`std::common_type<T1, T2, R...>` is `std::common_type<std::common_type_t<T1, T2>, R...>`
when the inner type exists. -/
def std_common_type_from (long_bits : Nat) : Ty → List Ty → Option Ty
  | C, [] => some C
  | C, T :: Ts =>
    match std_common_type_pair long_bits C T with
    | some D => std_common_type_from long_bits D Ts
    | none => none

/-- The value of integer type with `bits` bits, unsigned or not, that an integer `n`
converts to: the one congruent to `n` modulo `2 ^ bits`. -/
def integral_conversion (is_unsigned : Bool) (bits : Nat) (n : Int) : Int :=
  if is_unsigned then n % 2 ^ bits
  else (n + 2 ^ (bits - 1)) % 2 ^ bits - 2 ^ (bits - 1)

/-- The host language on integer types, with `long` of `long_bits` bits:
`std::common_type_t<Ts...>` (an empty list has none) and the conversion of an integer
value to an integer type. Integer types can be value-initialised. -/
def TypeEnv.integers (long_bits : Nat) : TypeEnv Value where
  std_common_type := fun Ts =>
    match Ts with
    | [] => none
    | T :: rest => std_common_type_from long_bits T rest
  convert := fun _ dst v =>
    match v with
    | Value.int n =>
      if dst.is_integer then
        Value.int (integral_conversion dst.is_unsigned (dst.bits long_bits) n)
      else v
    | _ => v

/-- The arms of "Simple matcher return type": `pattern(1) = char(1)`,
`pattern(2) = (unsigned char)(2)`, and so on up to
`pattern(10) = (unsigned long long)(10)`, then `pattern(_) = 11`. -/
def example_integer_arms : List (matcher Nat Value Value) :=
  [ (pattern [Term.literal (Value.int 1)]).assign (ResultExpr.plain Ty.char (Value.int 1)),
    (pattern [Term.literal (Value.int 2)]).assign
      (ResultExpr.plain Ty.unsigned_char (Value.int 2)),
    (pattern [Term.literal (Value.int 3)]).assign (ResultExpr.plain Ty.short (Value.int 3)),
    (pattern [Term.literal (Value.int 4)]).assign
      (ResultExpr.plain Ty.unsigned_short (Value.int 4)),
    (pattern [Term.literal (Value.int 5)]).assign (ResultExpr.plain Ty.int (Value.int 5)),
    (pattern [Term.literal (Value.int 6)]).assign
      (ResultExpr.plain Ty.unsigned_int (Value.int 6)),
    (pattern [Term.literal (Value.int 7)]).assign (ResultExpr.plain Ty.long (Value.int 7)),
    (pattern [Term.literal (Value.int 8)]).assign
      (ResultExpr.plain Ty.unsigned_long (Value.int 8)),
    (pattern [Term.literal (Value.int 9)]).assign
      (ResultExpr.plain Ty.long_long (Value.int 9)),
    (pattern [Term.literal (Value.int 10)]).assign
      (ResultExpr.plain Ty.unsigned_long_long (Value.int 10)),
    (pattern [wildcard.underscore Nat Value]).assign (ResultExpr.plain Ty.int (Value.int 11)) ]

/-- The arms `pattern(_) = 1, pattern(_) = std::string("")` of "Patum invarians". -/
def example_incompatible_arms : List (matcher Nat Value Value) :=
  [ (pattern [wildcard.underscore Nat Value]).assign (ResultExpr.plain Ty.int (Value.int 1)),
    (pattern [wildcard.underscore Nat Value]).assign
      (ResultExpr.plain Ty.string (Value.string "")) ]

/-! ## Predicates and the pattern library (predicate.h, expect.h) -/

/-- `predicate<F>`: the wrapped callable `func_`, from a subject of type `S` to a
result of type `R`. -/
structure predicate (σ S R : Type) where
  func_ : S → σ → R × σ

/-- `predicate::operator()(v)`: `func_(v)`. -/
def predicate.call {σ S R : Type} (p : predicate σ S R) (v : S) (st : σ) : R × σ :=
  p.func_ v st

/-- A predicate on subjects of type `S` as a pattern term, `to_bool` being the
conversion of its result to `bool`: the term is invocable and is not string-like. For
a predicate `lhs == rhs` builds another predicate, not a boolean; `evaluate_match`
does not reach that branch, and the field holds `false`. -/
def predicate.term {σ S R : Type} (p : predicate σ S R) (to_bool : R → Bool) : Term σ S where
  invoke := some (fun rhs st => (to_bool (p.call rhs st).1, (p.call rhs st).2))
  string_view := none
  equals := fun _ st => (false, st)

/-- The macro `assert(condition)`: nothing when `NDEBUG` is defined (`ndebug`) or the
condition holds (`some`), otherwise the program is aborted (`none`). -/
def assert_ (ndebug : Bool) (condition : Bool) : Option Unit :=
  if ndebug then some ()
  else if condition then some () else none

/-- `expect(condition)` of `expect.h`: `if (not condition) { assert(condition); }`. -/
def expect (ndebug : Bool) (condition : Bool) : Option Unit :=
  if !condition then assert_ ndebug condition else some ()

instance : StringLike Int where
  string_view := fun _ => none

/-- `range(first, last)` for an integral type, the subject being of that type:
`expect(first < last)`, then the predicate
`value_to_test >= first and value_to_test <= last`. `none` when the expectation
aborts. -/
def range {σ : Type} (ndebug : Bool) (first last : Int) : Option (predicate σ Int Bool) :=
  match expect ndebug (decide (first < last)) with
  | some _ =>
    some
      { func_ := fun value_to_test st =>
          (decide (value_to_test ≥ first) && decide (value_to_test ≤ last), st) }
  | none => none

/-- The fold `(false || ... || evaluate_match(values, value_to_test))` of `in`: the
values are tried from the first on, and none after one that matches. -/
def in_.fold {σ S : Type} [StringLike S] : List (Term σ S) → S → σ → Bool × σ
  | [], _, st => (false, st)
  | value :: values, value_to_test, st =>
    if (evaluate_match value value_to_test st).1 then
      (true, (evaluate_match value value_to_test st).2)
    else in_.fold values value_to_test (evaluate_match value value_to_test st).2

/-- `in(values...)`. -/
def in_ {σ S : Type} [StringLike S] (values : List (Term σ S)) : predicate σ S Bool where
  func_ := fun value_to_test st => in_.fold values value_to_test st

/-- An optional-like or pointer-like subject is an `Option`: empty or null is
`none`. It is not string-like. `static_cast<bool>(o)` is `o.isSome`, and `*o` is
`o.get h`, which asks for the evidence `h` that `o` holds a value. -/
instance {T : Type} : StringLike (Option T) where
  string_view := fun _ => none

/-- `some(value)`:
`static_cast<bool>(value_to_test) and evaluate_match(value, *value_to_test)`. -/
def some_value {σ T : Type} [StringLike T] (value : Term σ T) : predicate σ (Option T) Bool where
  func_ := fun value_to_test st =>
    if h : value_to_test.isSome then evaluate_match value (value_to_test.get h) st
    else (false, st)

/-- `some()`: `static_cast<bool>(value_to_test)`. -/
def some_ {σ T : Type} : predicate σ (Option T) Bool where
  func_ := fun value_to_test st => (value_to_test.isSome, st)

/-- `none`: `not static_cast<bool>(value_to_test)`. -/
def none_ {σ T : Type} : predicate σ (Option T) Bool where
  func_ := fun value_to_test st => (!value_to_test.isSome, st)

/-- A value of a `std::variant<Ts...>`: the declared alternatives `Ts...`, the index
of the alternative it holds, and the value held. -/
structure variant (V : Type) where
  alternatives : List Ty
  index : Nat
  value : V

instance {V : Type} : StringLike (variant V) where
  string_view := fun _ => none

/-- `std::holds_alternative<T>(u)`: whether the alternative that `u` holds is `T`. -/
def holds_alternative {V : Type} (T : Ty) (u : variant V) : Bool :=
  decide (u.alternatives.get? u.index = some T)

/-- `std::get<T>(u)`, which yields the value held when `u` holds the alternative `T`
(evidence `h`) and throws otherwise. -/
def std_get {V : Type} (T : Ty) (u : variant V) (_h : holds_alternative T u = true) : V :=
  u.value

/-- `valued(value)` for a value of type `T`:
`std::holds_alternative<T>(value_to_test) && evaluate_match(value, std::get<T>(value_to_test))`. -/
def valued {σ V : Type} [StringLike V] (T : Ty) (value : Term σ V) :
    predicate σ (variant V) Bool where
  func_ := fun value_to_test st =>
    if h : holds_alternative T value_to_test = true then
      evaluate_match value (std_get T value_to_test h) st
    else (false, st)

/-! ## Predicate combinators (predicate.h) -/

/-- `_u`: `predicate([](const auto& u) { return u; })`, the identity on the subject. -/
def _u {σ S : Type} : predicate σ S S where
  func_ := fun u st => (u, st)

/-- `_v`: `predicate([](const auto& v) { return v; })`. -/
def _v {σ S : Type} : predicate σ S S where
  func_ := fun v st => (v, st)

/-- `_w`: `predicate([](const auto& w) { return w; })`. -/
def _w {σ S : Type} : predicate σ S S where
  func_ := fun w st => (w, st)

/-- `_x`: `predicate([](const auto& x) { return x; })`. -/
def _x {σ S : Type} : predicate σ S S where
  func_ := fun x st => (x, st)

/-- `_y`: `predicate([](const auto& y) { return y; })`. -/
def _y {σ S : Type} : predicate σ S S where
  func_ := fun y st => (y, st)

/-- `_z`: `predicate([](const auto& z) { return z; })`. -/
def _z {σ S : Type} : predicate σ S S where
  func_ := fun z st => (z, st)

/-- Conversion of an integer to `bool`: true unless it is zero. -/
def int_to_bool (n : Int) : Bool :=
  decide (n ≠ 0)

/-- The built-in relational operators on two integers of one type. -/
def RelOp.holds : RelOp → Int → Int → Bool
  | RelOp.eq, a, b => decide (a = b)
  | RelOp.ne, a, b => decide (a ≠ b)
  | RelOp.lt, a, b => decide (a < b)
  | RelOp.le, a, b => decide (a ≤ b)
  | RelOp.gt, a, b => decide (a > b)
  | RelOp.ge, a, b => decide (a ≥ b)

/-- The overloads `operator==`, `!=`, `<=`, `>=`, `<`, `>` taking
`(const predicate<F>& m, const T& t)`: each returns the predicate `m(x) op t` with its
own operator `op`. -/
def predicate.relational {σ S : Type} (op : RelOp) (m : predicate σ S Int) (t : Int) :
    predicate σ S Bool where
  func_ := fun x st => (op.holds (m.call x st).1 t, (m.call x st).2)

/-- The overloads `operator==`, `!=`, `<=`, `>=`, `<`, `>` taking
`(const T& t, const predicate<F>& m)`: each returns the predicate `t op m(x)` with its
own operator `op`. -/
def predicate.relational_mirrored {σ S : Type} (op : RelOp) (t : Int) (m : predicate σ S Int) :
    predicate σ S Bool where
  func_ := fun x st => (op.holds t (m.call x st).1, (m.call x st).2)

/-- The overloads `operator==`, `!=`, `<=`, `>=`, `<`, `>` taking
`(const predicate<F>& m, const predicate<F2>& m2)`: each returns the predicate
`m(x) op m2(x)` with its own operator `op`; `m` is evaluated first here. -/
def predicate.relational_both {σ S : Type} (op : RelOp) (m m2 : predicate σ S Int) :
    predicate σ S Bool where
  func_ := fun x st =>
    (op.holds (m.call x st).1 (m2.call x (m.call x st).2).1, (m2.call x (m.call x st).2).2)

/-- `operator!(m)`: the predicate `!m(x)`. -/
def predicate.operator_not {σ S : Type} (m : predicate σ S Bool) : predicate σ S Bool where
  func_ := fun x st => (!(m.call x st).1, (m.call x st).2)

/-- `operator&&(m, m2)`: the predicate `m(x) && m2(x)`; `m2` is called only when
`m(x)` is true. -/
def predicate.operator_and {σ S : Type} (m m2 : predicate σ S Bool) : predicate σ S Bool where
  func_ := fun x st =>
    if (m.call x st).1 then m2.call x (m.call x st).2 else (false, (m.call x st).2)

/-- `operator||(m, m2)`: the predicate `m(x) || m2(x)`; `m2` is called only when
`m(x)` is false. -/
def predicate.operator_or {σ S : Type} (m m2 : predicate σ S Bool) : predicate σ S Bool where
  func_ := fun x st =>
    if (m.call x st).1 then (true, (m.call x st).2) else m2.call x (m.call x st).2

/-- The built-in `a << b` on integers, for `0 ≤ b` and a result in range:
`a * 2 ^ b`. -/
def shift_left (a b : Int) : Int :=
  a * 2 ^ b.toNat

/-- The built-in `a >> b` on integers, for `0 ≤ b`: `a / 2 ^ b` rounded down. -/
def shift_right (a b : Int) : Int :=
  Int.fdiv a (2 ^ b.toNat)

/-- `operator>>(const predicate<F>& m, const T& t)`: the predicate `m(x) >> t`. -/
def predicate.shift_right_constant {σ S : Type} (m : predicate σ S Int) (t : Int) :
    predicate σ S Int where
  func_ := fun x st => (shift_right (m.call x st).1 t, (m.call x st).2)

/-- `operator>>(const T& t, const predicate<F>& m)`: the predicate `t << m(x)`. -/
def predicate.shift_right_mirrored {σ S : Type} (t : Int) (m : predicate σ S Int) :
    predicate σ S Int where
  func_ := fun x st => (shift_left t (m.call x st).1, (m.call x st).2)

/-- `operator>>(const predicate<F>& m, const predicate<F2>& m2)`: the predicate
`m(x) >> m2(x)`. -/
def predicate.shift_right_both {σ S : Type} (m m2 : predicate σ S Int) : predicate σ S Int where
  func_ := fun x st =>
    (shift_right (m.call x st).1 (m2.call x (m.call x st).2).1, (m2.call x (m.call x st).2).2)

/-- `operator<<(const predicate<F>& m, const T& t)`: the predicate `m(x) >> t`. -/
def predicate.shift_left_constant {σ S : Type} (m : predicate σ S Int) (t : Int) :
    predicate σ S Int where
  func_ := fun x st => (shift_right (m.call x st).1 t, (m.call x st).2)

/-- `operator<<(const T& t, const predicate<F>& m)`: the predicate `t << m(x)`. -/
def predicate.shift_left_mirrored {σ S : Type} (t : Int) (m : predicate σ S Int) :
    predicate σ S Int where
  func_ := fun x st => (shift_left t (m.call x st).1, (m.call x st).2)

/-- `operator<<(const predicate<F>& m, const predicate<F2>& m2)`: the predicate
`m(x) << m2(x)`. -/
def predicate.shift_left_both {σ S : Type} (m m2 : predicate σ S Int) : predicate σ S Int where
  func_ := fun x st =>
    (shift_left (m.call x st).1 (m2.call x (m.call x st).2).1, (m2.call x (m.call x st).2).2)

/-- A `bool` used as a pattern term against an integer subject: it cannot be invoked
and is not string-like, and `lhs == rhs` compares the integer value of the boolean
(1 or 0) with the subject. -/
def Term.boolean {σ : Type} (b : Bool) : Term σ Int where
  invoke := none
  string_view := none
  equals := fun rhs st => (decide ((if b then 1 else 0) = rhs), st)

/-- The pattern term `_ op c` (wildcard on the left) or `c op _` (on the right): the
friend operator of the wildcard returns a `bool`, and that boolean is the term. -/
def wildcard.compared {σ : Type} (op : RelOp) (side : Side) (c : Int) : Term σ Int :=
  Term.boolean (wildcard.compare op side c)

/-! ## Variants, strings and sequences (type_traits.h, predicate.h) -/

/-- `is_variant_holding<T, std::variant<Ts...>>`: `(std::is_same_v<T, Ts> || ...)`. -/
def is_variant_holding (T : Ty) (Ts : List Ty) : Bool :=
  Ts.foldl (fun acc U => acc || decide (T = U)) false

/-- `typed<T>`: the predicate returning `is_variant_holding<T, U>()` for the type `U`
of the subject, whose value it does not read. -/
def typed {σ V : Type} (T : Ty) : predicate σ (variant V) Bool where
  func_ := fun value_to_test st => (is_variant_holding T value_to_test.alternatives, st)

/-- A string in one of its representations: a string literal, a `const char*`, a
`std::string` or a `std::string_view`. -/
inductive string_like
  | literal (s : String)
  | c_string (s : String)
  | std_string (s : String)
  | std_string_view (s : String)
  deriving DecidableEq, Repr

/-- The characters `std::string_view(s)` views (for a literal and a `const char*`,
those before the terminating null). -/
def string_like.content : string_like → String
  | string_like.literal s => s
  | string_like.c_string s => s
  | string_like.std_string s => s
  | string_like.std_string_view s => s

instance : StringLike string_like where
  string_view := fun s => some s.content

/-- A string used as a pattern term: it cannot be invoked and it is string-like;
`equals` is what `lhs == rhs` does for its representation. -/
def string_like.term {σ : Type} (a : string_like) (equals : string_like → σ → Bool × σ) :
    Term σ string_like where
  invoke := none
  string_view := some a.content
  equals := equals

/-- A sequence subject (a `std::vector`) is a list; it is not string-like. A position
in it (an iterator) is the offset from its beginning, and `std::size` and
`std::ssize` are given by their integer value. -/
instance {E : Type} : StringLike (List E) where
  string_view := fun _ => none

/-- `sized(count)`: `std::size(value_to_test) == count`, both of type `std::size_t`. -/
def sized {σ E : Type} (count : Nat) : predicate σ (List E) Bool where
  func_ := fun value_to_test st => (decide (value_to_test.length = count), st)

/-- `size(m)`: `std::size(m(value_to_test))`. -/
def size {σ S E : Type} (m : predicate σ S (List E)) : predicate σ S Int where
  func_ := fun value_to_test st =>
    (((m.call value_to_test st).1.length : Int), (m.call value_to_test st).2)

/-- `ssized(count)`: `std::ssize(value_to_test) == count`, both of type
`std::ptrdiff_t`. -/
def ssized {σ E : Type} (count : Int) : predicate σ (List E) Bool where
  func_ := fun value_to_test st => (decide ((value_to_test.length : Int) = count), st)

/-- `ssize(m)`: `std::ssize(m(value_to_test))`. -/
def ssize {σ S E : Type} (m : predicate σ S (List E)) : predicate σ S Int where
  func_ := fun value_to_test st =>
    (((m.call value_to_test st).1.length : Int), (m.call value_to_test st).2)

/-- `begin()`: `std::ranges::begin(value_to_test)`. -/
def begin_ {σ E : Type} : predicate σ (List E) Int where
  func_ := fun _ st => (0, st)

/-- `end()`: `std::ranges::end(value_to_test)`. -/
def end_ {σ E : Type} : predicate σ (List E) Int where
  func_ := fun value_to_test st => ((value_to_test.length : Int), st)

/-- `find(value, proj)`: `std::ranges::find(value_to_test, value, proj)`, the position
of the first element `e` with `proj(e) == value`, the end position when there is
none. -/
def find {σ E P : Type} [DecidableEq P] (value : P) (proj : E → P) : predicate σ (List E) Int where
  func_ := fun value_to_test st =>
    (((value_to_test.findIdx (fun e => decide (proj e = value)) : Nat) : Int), st)

/-! ## Destructuring (struct.h, tuple.h, predicate.h) -/

/-- What `ds` reads of a subject of static type `U`: `std::is_aggregate_v<U>`,
`member_count_v<U>`, whether `U` is tuple-like (`std::tuple_size_v<U>` is then the
number of its elements), and the members, or the elements, in order. -/
structure Shape (S : Type) where
  is_aggregate : Bool
  member_count : Nat
  is_tuple_like : Bool
  elements : List S

/-- Subjects whose shape `ds` can ask for. -/
class Destructurable (S : Type) where
  shape : S → Shape S

/-- `to_tuple_t<N>{}(s)`: the tuple of the members of the aggregate `s`, bound by
`auto [e0, ...] = s`. The template is specialised for `N` from 0 to 8 only, and the
binding asks for as many names as `s` has members; otherwise the program is ill
formed (`none`). -/
def to_tuple_t {S : Type} [Destructurable S] (N : Nat) (s : S) : Option (List S) :=
  if N ≤ 8 ∧ (Destructurable.shape s).elements.length = N then
    some (Destructurable.shape s).elements
  else none

/-- The tuple that the predicate of `ds` hands to the unpacker with its `n` values:
`to_tuple_t<member_count_v<U>>{}(value_to_test)` if
`std::is_aggregate_v<U> && member_count_v<U> >= n`; else `value_to_test` itself if
`std::tuple_size_v<U> >= n`; else the `static_assert` fails (`none`, as when `U` is not
tuple-like). -/
def ds.decompose {S : Type} [Destructurable S] (n : Nat) (value_to_test : S) :
    Option (List S) :=
  if (Destructurable.shape value_to_test).is_aggregate
      && decide ((Destructurable.shape value_to_test).member_count ≥ n) then
    to_tuple_t (Destructurable.shape value_to_test).member_count value_to_test
  else if (Destructurable.shape value_to_test).is_tuple_like then
    if (Destructurable.shape value_to_test).elements.length ≥ n then
      some (Destructurable.shape value_to_test).elements
    else none
  else none

/-- The body of the predicate of `ds(values...)`: in either branch,
`tuple_unpacker<sizeof...(Args)>::apply` with `evaluate_match` as the test, over the
values and the decomposed subject. -/
def ds.body {σ S : Type} [StringLike S] [Destructurable S] (values : List (Term σ S))
    (value_to_test : S) (st : σ) : Option (Checked σ) :=
  match ds.decompose values.length value_to_test with
  | some t => tuple_unpacker.apply (fun x y => evaluate_match x y) values.length values t st
  | none => none

/-- `ds(values...)`. On a subject for which the body is ill formed the program does
not compile; the predicate is given the value `false` there. -/
def ds {σ S : Type} [StringLike S] [Destructurable S] (values : List (Term σ S)) :
    predicate σ S Bool where
  func_ := fun value_to_test st =>
    match ds.body values value_to_test st with
    | some c => (c.ok, c.state)
    | none => (false, st)

/-- Values with structure: a value that is not a product, a `std::tuple` of values, or
a plain aggregate with its members. -/
inductive Object
  | scalar (v : Value)
  | tuple (elements : List Object)
  | aggregate (members : List Object)

instance : StringLike Object where
  string_view := fun o =>
    match o with
    | Object.scalar v => StringLike.string_view v
    | _ => none

instance : Destructurable Object where
  shape := fun o =>
    match o with
    | Object.scalar _ =>
      { is_aggregate := false, member_count := 0, is_tuple_like := false, elements := [] }
    | Object.tuple elements =>
      { is_aggregate := false, member_count := 0, is_tuple_like := true, elements := elements }
    | Object.aggregate members =>
      { is_aggregate := true, member_count := members.length, is_tuple_like := false,
        elements := members }

/-- A value of a non-callable type used as a pattern term against an `Object`: it
cannot be invoked, it is string-like exactly when it is a string, and `==` holds
against the scalar of the same value. -/
def Object.literal {σ : Type} (c : Value) : Term σ Object where
  invoke := none
  string_view := StringLike.string_view c
  equals := fun rhs st =>
    match rhs with
    | Object.scalar v => (decide (c = v), st)
    | _ => (false, st)

/-- `next(m, count)`: `std::ranges::next(m(value_to_test), count)`, the position
`count` steps after the one `m` gives (`count` is 1 when it is not given). -/
def next {σ S : Type} (m : predicate σ S Int) (count : Int) : predicate σ S Int where
  func_ := fun value_to_test st =>
    ((m.call value_to_test st).1 + count, (m.call value_to_test st).2)

/-- `prev(m, count)`: `std::ranges::prev(m(value_to_test), count)`, the position
`count` steps before the one `m` gives (`count` is 1 when it is not given). -/
def prev {σ S : Type} (m : predicate σ S Int) (count : Int) : predicate σ S Int where
  func_ := fun value_to_test st =>
    ((m.call value_to_test st).1 - count, (m.call value_to_test st).2)

/-- An integer used as a pattern term against an integer subject of its type: it
cannot be invoked, it is not string-like, and `==` is equality of integers. -/
def Term.integer {σ : Type} (c : Int) : Term σ Int where
  invoke := none
  string_view := none
  equals := fun rhs st => (decide (c = rhs), st)

/-- `std::optional::value_or(d)`: the value held, `d` when there is none. -/
def value_or {V : Type} (o : Option V) (d : V) : V :=
  match o with
  | some v => v
  | none => d

/-- The ordered chain `if (test(x, c1)) r1; else if (test(x, c2)) r2; ... else d` over
the pairs `(ci, ri)`, the `test` being `x == c` or `x < c`. -/
def if_else_chain (test : Int → Int → Bool) (x : Int) : List (Int × Int) → Int → Int
  | [], d => d
  | (c, r) :: rest, d => if test x c then r else if_else_chain test x rest d

/-- The arms `pattern(c1) = r1, ..., pattern(cn) = rn` for the pairs `(ci, ri)` of
integers, the result type being `int`. -/
def literal_arms {σ : Type} (arms : List (Int × Int)) : List (matcher σ Int Value) :=
  arms.map (fun a => (pattern [Term.integer a.1]).assign (ResultExpr.plain Ty.int (Value.int a.2)))

/-- The arms `pattern(_x < c1) = r1, ..., pattern(_x < cn) = rn` for the pairs
`(ci, ri)` of integers, the result type being `int`. -/
def less_than_arms {σ : Type} (arms : List (Int × Int)) : List (matcher σ Int Value) :=
  arms.map (fun a =>
    (pattern [(predicate.relational RelOp.lt _x a.1).term id]).assign
      (ResultExpr.plain Ty.int (Value.int a.2)))

/-- The integers `lo, lo + 1, ..., hi` in order (none when `hi < lo`). -/
def enumeration (lo hi : Int) : List Int :=
  (List.range (hi + 1 - lo).toNat).map (fun (i : Nat) => lo + (i : Int))

/-- A predicate with a side effect, as a pattern term: it answers `true` whatever the
subject is, and counts its calls in the state. -/
def example_counting_term : Term Nat Value where
  invoke := some (fun _ st => (true, st + 1))
  string_view := none
  equals := fun _ st => (false, st)

/-- The matcher `pattern(10, counting) = 1`, whose second term is the counting
predicate. -/
def example_counting_matcher : matcher Nat Value Value :=
  (pattern [Term.literal (Value.int 10), example_counting_term]).assign
    (ResultExpr.plain Ty.int (Value.int 1))

/-! ## Pattern terms as written, and what the compiler accepts (predicate.h, matcher.h, match.h) -/

/-- A pattern term of static type `T` as it is written in `pattern(...)`, with what the
compiler finds when it instantiates `evaluate_match<T, U>` for it. `term` is the term
as `evaluate_match` runs it. For a subject `rhs` of static type `U`,
`call_well_formed rhs` says whether the call `lhs(rhs)` of a term that can be called
compiles (the body of a predicate is instantiated for `U`, where a `requires` or a
`static_assert` may fail), and `equality_comparable rhs` says whether `lhs == rhs` is
well formed. -/
structure PatternTerm (σ S : Type) where
  term : Term σ S
  call_well_formed : S → Bool
  equality_comparable : S → Bool

/-- The wildcard `_` as written: its call compiles for a subject of every type. -/
def PatternTerm.wildcard (σ S : Type) : PatternTerm σ S where
  term := wildcard.underscore σ S
  call_well_formed := fun _ => true
  equality_comparable := fun _ => true

/-- The matcher `pattern(counting, 10) = 1`, whose first term is the counting
predicate. -/
def example_counting_first : matcher Nat Value Value :=
  (pattern [example_counting_term, Term.literal (Value.int 10)]).assign
    (ResultExpr.plain Ty.int (Value.int 1))

/-! # Theorems -/

/-! ## Auxiliary facts -/

theorem foldl_and_eq_all {α : Type} (p : α → Bool) (M : List α) (b : Bool) :
    M.foldl (fun acc m => acc && p m) b = (b && M.all p) := by
  induction M generalizing b with
  | nil => simp
  | cons x xs ih => simp [ih, Bool.and_assoc]

theorem requires_clause_iff (E : Nat) (M : List (Option Nat)) :
    match_helper.requires_clause E M = true ↔ M ≠ [] ∧ ∀ m ∈ M, m = some E := by
  unfold match_helper.requires_clause compatible_patterns compatible_patterns_args
  rw [foldl_and_eq_all, foldl_and_eq_all]
  simp only [Bool.true_and, Bool.and_eq_true, List.all_eq_true, decide_eq_true_eq, bne_iff_ne,
    ne_eq, List.length_eq_zero]
  constructor
  · rintro ⟨⟨_, h2⟩, h3⟩
    exact ⟨h3, fun m hm => (h2 m hm).symm⟩
  · rintro ⟨h1, h2⟩
    refine ⟨⟨fun m hm => ?_, fun m hm => (h2 m hm).symm⟩, h1⟩
    rw [h2 m hm]
    rfl

theorem requires_clause_matchers {σ S V : Type} (k : Nat) (arms : List (matcher σ S V)) :
    match_helper.requires_clause k (arms.map (fun m => some m.capture_count)) = true
      ↔ arms ≠ [] ∧ ∀ a ∈ arms, a.capture_count = k := by
  rw [requires_clause_iff]
  simp

theorem tuple_unpacker.apply_isSome {σ A B : Type} (func : A → B → σ → Bool × σ) (N : Nat)
    (t1 : List A) (t2 : List B) (h1 : N ≤ t1.length) (h2 : N ≤ t2.length) (st : σ) :
    ∃ c, tuple_unpacker.apply func N t1 t2 st = some c := by
  induction N generalizing st with
  | zero => exact ⟨_, rfl⟩
  | succ n ih =>
    obtain ⟨x, hx⟩ : ∃ x, t1.get? n = some x := ⟨t1.get ⟨n, h1⟩, List.get?_eq_get h1⟩
    obtain ⟨y, hy⟩ : ∃ y, t2.get? n = some y := ⟨t2.get ⟨n, h2⟩, List.get?_eq_get h2⟩
    simp only [tuple_unpacker.apply, hx, hy]
    by_cases hb : (func x y st).1 = true
    · obtain ⟨c, hc⟩ := ih (Nat.le_of_succ_le h1) (Nat.le_of_succ_le h2) (func x y st).2
      simp [hb, hc]
    · simp [hb]

theorem matcher.check_isSome {σ S V : Type} [StringLike S] (m : matcher σ S V)
    (values : List S) (h : values.length ≤ m.capture_count) (st : σ) :
    ∃ c, m.check values st = some c :=
  tuple_unpacker.apply_isSome _ _ _ _ h (Nat.le_refl _) st

theorem match_helper.fold_rejected {σ S V α : Type} [StringLike S]
    (invoke : matcher σ S V → List S → α → σ → Invoked σ α) (ex : List S)
    (pre rest : List (matcher σ S V)) (i : Nat) (result : α) (st st1 : σ)
    (h : rejects_all ex pre st = some st1) :
    ∃ tr : List Event, (∀ e ∈ tr, ∃ a p, e = Event.evaluated a p ∧ a < i + pre.length) ∧
      match_helper.fold invoke ex i (pre ++ rest) result st =
        (match_helper.fold invoke ex (i + pre.length) rest result st1).map
          (fun r => { r with trace := tr ++ r.trace }) := by
  induction pre generalizing i st with
  | nil =>
    simp only [rejects_all, Option.some.injEq] at h
    subst h
    refine ⟨[], by simp, ?_⟩
    simp only [List.nil_append, List.length_nil, Nat.add_zero]
    cases match_helper.fold invoke ex i rest result st <;> rfl
  | cons m ms ih =>
    simp only [rejects_all] at h
    cases hc : match_expressions m ex st with
    | none => simp [hc] at h
    | some c =>
      simp only [hc] at h
      by_cases hok : c.ok = true
      · simp [hok] at h
      · simp only [hok, Bool.false_eq_true, if_false] at h
        obtain ⟨tr, htr, heq⟩ := ih (i + 1) c.state h
        refine ⟨c.evaluated.map (Event.evaluated i) ++ tr, ?_, ?_⟩
        · intro e he
          rcases List.mem_append.1 he with he | he
          · obtain ⟨p, _, rfl⟩ := List.mem_map.1 he
            exact ⟨i, p, rfl, by simp⟩
          · obtain ⟨a, p, rfl, ha⟩ := htr e he
            exact ⟨a, p, rfl, by simp only [List.length_cons]; omega⟩
        · have harith : i + 1 + ms.length = i + (m :: ms).length := by
            simp only [List.length_cons]; omega
          rw [harith] at heq
          rw [List.cons_append, match_helper.fold]
          simp only [hc, hok, Bool.false_eq_true, if_false]
          rw [heq]
          cases match_helper.fold invoke ex (i + (m :: ms).length) rest result st1 <;>
            simp [List.append_assoc]

theorem match_helper.fold_first_match {σ S V α : Type} [StringLike S]
    (invoke : matcher σ S V → List S → α → σ → Invoked σ α) (ex : List S)
    (pre : List (matcher σ S V)) (m : matcher σ S V) (post : List (matcher σ S V))
    (i : Nat) (result : α) (st st1 : σ) (c : Checked σ)
    (hpre : rejects_all ex pre st = some st1)
    (hm : match_expressions m ex st1 = some c) (hok : c.ok = true) :
    ∃ tr : List Event, (∀ e ∈ tr, ∃ a p, e = Event.evaluated a p ∧ a < i + pre.length) ∧
      match_helper.fold invoke ex i (pre ++ m :: post) result st =
        some
          { result := (invoke m ex result c.state).result
            state := (invoke m ex result c.state).state
            trace := tr ++ (c.evaluated.map (Event.evaluated (i + pre.length))
              ++ (if (invoke m ex result c.state).called then [Event.invoked (i + pre.length)]
                else [])) } := by
  obtain ⟨tr, htr, heq⟩ := match_helper.fold_rejected invoke ex pre (m :: post) i result st st1 hpre
  refine ⟨tr, htr, ?_⟩
  rw [heq]
  simp [match_helper.fold, hm, hok]

theorem match_helper.fold_no_match {σ S V α : Type} [StringLike S]
    (invoke : matcher σ S V → List S → α → σ → Invoked σ α) (ex : List S)
    (arms : List (matcher σ S V)) (i : Nat) (result : α) (st st1 : σ)
    (h : rejects_all ex arms st = some st1) :
    ∃ tr : List Event, (∀ e ∈ tr, ∃ a p, e = Event.evaluated a p ∧ a < i + arms.length) ∧
      match_helper.fold invoke ex i arms result st =
        some { result := result, state := st1, trace := tr } := by
  obtain ⟨tr, htr, heq⟩ := match_helper.fold_rejected invoke ex arms [] i result st st1 h
  refine ⟨tr, htr, ?_⟩
  rw [List.append_nil] at heq
  rw [heq]
  simp [match_helper.fold]

theorem invoke_result_expressions_state {σ S V : Type} (env : TypeEnv V) (R : Ty)
    (m : matcher σ S V) (ex : List S) (result : Option V) (st : σ) :
    (invoke_result_expressions env R m ex result st).state
      = ((m.get Qualifier.rvalue ex).run st).2 := by
  unfold invoke_result_expressions
  split
  · rfl
  · split <;> simp_all

theorem invoke_result_expressions_called {σ S V : Type} (env : TypeEnv V) (R : Ty)
    (m : matcher σ S V) (ex : List S) (result : Option V) (st : σ) :
    (invoke_result_expressions env R m ex result st).called
      = (m.get Qualifier.rvalue ex).calls := by
  unfold invoke_result_expressions
  split
  · rfl
  · split <;> rfl

theorem mem_non_void_common_type (t : Ty) (Ts : List Ty) :
    t ∈ non_void_common_type Ts ↔ t ∈ Ts ∧ t ≠ Ty.void := by
  induction Ts with
  | nil => simp [non_void_common_type]
  | cons T rest ih =>
    by_cases hT : T = Ty.void
    · subst hT
      simp only [non_void_common_type, if_true, ih, List.mem_cons]
      constructor
      · rintro ⟨h1, h2⟩
        exact ⟨Or.inr h1, h2⟩
      · rintro ⟨h1 | h1, h2⟩
        · exact absurd h1 h2
        · exact ⟨h1, h2⟩
    · rw [non_void_common_type, if_neg hT, append_type, List.mem_append, ih,
        List.mem_singleton, List.mem_cons]
      constructor
      · rintro (⟨h1, h2⟩ | h1)
        · exact ⟨Or.inr h1, h2⟩
        · exact ⟨Or.inl h1, h1 ▸ hT⟩
      · rintro ⟨h1 | h1, h2⟩
        · exact Or.inr h1
        · exact Or.inl ⟨h1, h2⟩

/-- The outcome of a call in which the arms of `pre` are rejected and the check of
`m` succeeds. -/
theorem match_helper.call_first_match {σ S V : Type} [StringLike S] (env : TypeEnv V)
    (h : match_helper S) (pre : List (matcher σ S V)) (m : matcher σ S V)
    (post : List (matcher σ S V)) (st st1 : σ) (c : Checked σ)
    (harity : ∀ a ∈ pre ++ m :: post, a.capture_count = h.expressions_.length)
    (hpre : rejects_all h.expressions_ pre st = some st1)
    (hm : m.check h.expressions_ st1 = some c) (hok : c.ok = true) :
    ∃ tr : List Event, (∀ e ∈ tr, ∃ a p, e = Event.evaluated a p ∧ a < pre.length) ∧
      match_helper.call env h (pre ++ m :: post) st =
        some
          { returned :=
              if match_helper.ReturnType env h (pre ++ m :: post) = Ty.not_found_t then
                Returned.void
              else
                Returned.optional
                  (invoke_result_expressions env
                    (match_helper.ReturnType env h (pre ++ m :: post)) m h.expressions_ none
                    c.state).result
            state := ((m.get Qualifier.rvalue h.expressions_).run c.state).2
            trace := tr ++ (c.evaluated.map (Event.evaluated pre.length)
              ++ (if (m.get Qualifier.rvalue h.expressions_).calls then
                    [Event.invoked pre.length] else [])) } := by
  have hreq : match_helper.requires_clause h.expressions_.length
      ((pre ++ m :: post).map (fun a => some a.capture_count)) = true :=
    (requires_clause_matchers _ _).2 ⟨by simp, harity⟩
  obtain ⟨tr, htr, hfv⟩ := match_helper.fold_first_match invoke_expressions h.expressions_
    pre m post 0 () st st1 c hpre hm hok
  obtain ⟨tr2, htr2, hfr⟩ := match_helper.fold_first_match
    (invoke_result_expressions env (match_helper.ReturnType env h (pre ++ m :: post)))
    h.expressions_ pre m post 0 none st st1 c hpre hm hok
  simp only [Nat.zero_add] at htr htr2 hfv hfr
  by_cases hmode : match_helper.ReturnType env h (pre ++ m :: post) = Ty.not_found_t
  · refine ⟨tr, htr, ?_⟩
    unfold match_helper.call
    rw [if_pos hreq, if_pos hmode, hfv, if_pos hmode]
    rfl
  · refine ⟨tr2, htr2, ?_⟩
    unfold match_helper.call
    rw [if_pos hreq, if_neg hmode, hfr, if_neg hmode]
    simp only [invoke_result_expressions_state, invoke_result_expressions_called]

theorem match_helper.fold_isSome {σ S V α : Type} [StringLike S]
    (invoke : matcher σ S V → List S → α → σ → Invoked σ α) (ex : List S)
    (arms : List (matcher σ S V)) (harity : ∀ a ∈ arms, a.capture_count = ex.length)
    (i : Nat) (result : α) (st : σ) :
    ∃ r, match_helper.fold invoke ex i arms result st = some r := by
  induction arms generalizing i st with
  | nil => exact ⟨_, rfl⟩
  | cons m ms ih =>
    obtain ⟨c, hc⟩ := m.check_isSome ex (Nat.le_of_eq (harity m (List.mem_cons_self _ _)).symm) st
    have hc2 : match_expressions m ex st = some c := hc
    rw [match_helper.fold]
    simp only [hc2]
    by_cases hok : c.ok = true
    · simp [hok]
    · obtain ⟨r, hr⟩ := ih (fun a ha => harity a (List.mem_cons_of_mem _ ha)) (i + 1) c.state
      simp [hok, hr]

theorem tuple_unpacker.apply_read_only {σ A B : Type} (func : A → B → σ → Bool × σ) (N : Nat)
    (t1 : List A) (t2 : List B) (st : σ) (h1 : N ≤ t1.length) (h2 : N ≤ t2.length)
    (hread : ∀ i x y, i < N → t1.get? i = some x → t2.get? i = some y → (func x y st).2 = st) :
    ∃ c, tuple_unpacker.apply func N t1 t2 st = some c ∧ c.state = st ∧
      (c.ok = true ↔
        ∀ i x y, i < N → t1.get? i = some x → t2.get? i = some y → (func x y st).1 = true) := by
  induction N with
  | zero =>
    refine ⟨_, rfl, rfl, ?_⟩
    simp
  | succ n ih =>
    obtain ⟨x, hx⟩ : ∃ x, t1.get? n = some x := ⟨t1.get ⟨n, h1⟩, List.get?_eq_get h1⟩
    obtain ⟨y, hy⟩ : ∃ y, t2.get? n = some y := ⟨t2.get ⟨n, h2⟩, List.get?_eq_get h2⟩
    have hst : (func x y st).2 = st := hread n x y (Nat.lt_succ_self n) hx hy
    obtain ⟨c, hc, hcs, hco⟩ := ih (Nat.le_of_succ_le h1) (Nat.le_of_succ_le h2)
      (fun i a b hi => hread i a b (Nat.lt_succ_of_lt hi))
    simp only [tuple_unpacker.apply, hx, hy, hst]
    by_cases hb : (func x y st).1 = true
    · refine ⟨{ c with evaluated := n :: c.evaluated }, by simp [hb, hc], hcs, ?_⟩
      show c.ok = true ↔ _
      rw [hco]
      constructor
      · intro hall i a b hi ha hb2
        rcases Nat.lt_succ_iff_lt_or_eq.1 hi with hlt | heq
        · exact hall i a b hlt ha hb2
        · subst heq
          rw [hx] at ha
          rw [hy] at hb2
          cases ha
          cases hb2
          exact hb
      · intro hall i a b hi
        exact hall i a b (Nat.lt_succ_of_lt hi)
    · refine ⟨{ ok := false, state := st, evaluated := [n] }, by simp [hb], rfl, ?_⟩
      constructor
      · intro hf
        cases hf
      · intro hall
        exact absurd (hall n x y (Nat.lt_succ_self n) hx hy) hb

/-! ## First match wins -/

/-- C1. In a match call whose unified result type is `R`, when the arms before `m`
are all rejected and the check of `m`, which produces the value `v` of type `R`,
succeeds, the call returns an optional holding `v`, whatever the arms declared after
`m` are (they may match as well). -/
theorem first_matching_arm_wins {σ S V : Type} [StringLike S] (env : TypeEnv V)
    (h : match_helper S) (pre : List (matcher σ S V)) (m : matcher σ S V)
    (post : List (matcher σ S V)) (st st1 st2 : σ) (c : Checked σ) (R : Ty) (v : V)
    (harity : ∀ a ∈ pre ++ m :: post, a.capture_count = h.expressions_.length)
    (hR : match_helper.ReturnType env h (pre ++ m :: post) = R)
    (hfound : R ≠ Ty.not_found_t) (hvalue : R ≠ Ty.void)
    (hty : (m.get Qualifier.rvalue h.expressions_).type = R)
    (hconv : ∀ x, env.convert R R x = x)
    (hpre : rejects_all h.expressions_ pre st = some st1)
    (hm : m.check h.expressions_ st1 = some c) (hok : c.ok = true)
    (hv : (m.get Qualifier.rvalue h.expressions_).run c.state = (some v, st2)) :
    ∃ out, match_helper.call env h (pre ++ m :: post) st = some out ∧
      out.returned = Returned.optional (some v) ∧ out.state = st2 := by
  obtain ⟨tr, -, hcall⟩ := match_helper.call_first_match env h pre m post st st1 c harity hpre hm hok
  refine ⟨_, hcall, ?_, ?_⟩
  · have hl : (m.get Qualifier.lvalue h.expressions_).type ≠ Ty.void := by
      show (m.get Qualifier.rvalue h.expressions_).type ≠ Ty.void
      rw [hty]; exact hvalue
    simp only [hR, if_neg hfound, invoke_result_expressions, if_neg hl, hv, hty, hconv]
  · simp only [hv]

/-- C1, on `match(5)(pattern(10) = 1, pattern(5) = 2, pattern(3) = 3, pattern(_) = 4)`:
the result is 2, though the last arm matches too. -/
theorem first_matching_arm_wins_witness :
    ∃ out, match_helper.call (TypeEnv.uniform Value) (match_ [Value.int 5])
        ([example_value_arm 10 1] ++ example_value_arm 5 2 ::
          [example_value_arm 3 3,
            (pattern [wildcard.underscore Nat Value]).assign
              (ResultExpr.plain Ty.int (Value.int 4))]) 0 = some out ∧
      out.returned = Returned.optional (some (Value.int 2)) ∧ out.state = 0 :=
  first_matching_arm_wins (TypeEnv.uniform Value) (match_ [Value.int 5])
    [example_value_arm 10 1] (example_value_arm 5 2)
    [example_value_arm 3 3,
      (pattern [wildcard.underscore Nat Value]).assign (ResultExpr.plain Ty.int (Value.int 4))]
    0 0 0 { ok := true, state := 0, evaluated := [0] } Ty.int (Value.int 2)
    (by
      intro a ha
      simp only [List.singleton_append, List.mem_cons, List.mem_singleton, List.not_mem_nil,
        or_false] at ha
      rcases ha with rfl | rfl | rfl | rfl <;> rfl)
    rfl (by decide) (by decide) rfl (fun _ => rfl) rfl rfl rfl rfl

/-- C2. When every arm of a match call is rejected, the call returns an empty
optional in value mode and nothing in void mode; no result callable is invoked, and
the state is the one the pattern checks alone leave. -/
theorem no_match_yields_empty {σ S V : Type} [StringLike S] (env : TypeEnv V)
    (h : match_helper S) (arms : List (matcher σ S V)) (st st1 : σ)
    (hne : arms ≠ [])
    (harity : ∀ a ∈ arms, a.capture_count = h.expressions_.length)
    (hall : rejects_all h.expressions_ arms st = some st1) :
    ∃ out, match_helper.call env h arms st = some out ∧
      out.returned =
        (if match_helper.ReturnType env h arms = Ty.not_found_t then Returned.void
          else Returned.optional none) ∧
      out.state = st1 ∧ ∀ i, Event.invoked i ∉ out.trace := by
  have hreq : match_helper.requires_clause h.expressions_.length
      (arms.map (fun a => some a.capture_count)) = true :=
    (requires_clause_matchers _ _).2 ⟨hne, harity⟩
  have hev : ∀ tr : List Event,
      (∀ e ∈ tr, ∃ a p, e = Event.evaluated a p ∧ a < 0 + arms.length) →
        ∀ i, Event.invoked i ∉ tr := by
    intro tr htr i hi
    obtain ⟨a, p, hap, -⟩ := htr _ hi
    cases hap
  by_cases hmode : match_helper.ReturnType env h arms = Ty.not_found_t
  · obtain ⟨tr, htr, hf⟩ := match_helper.fold_no_match invoke_expressions h.expressions_
      arms 0 () st st1 hall
    refine ⟨{ returned := Returned.void, state := st1, trace := tr }, ?_, ?_, rfl, hev tr htr⟩
    · unfold match_helper.call
      rw [if_pos hreq, if_pos hmode, hf]
    · rw [if_pos hmode]
  · obtain ⟨tr, htr, hf⟩ := match_helper.fold_no_match
      (invoke_result_expressions env (match_helper.ReturnType env h arms)) h.expressions_
      arms 0 none st st1 hall
    refine ⟨{ returned := Returned.optional none, state := st1, trace := tr }, ?_, ?_, rfl,
      hev tr htr⟩
    · unfold match_helper.call
      rw [if_pos hreq, if_neg hmode, hf]
    · rw [if_neg hmode]

/-- C2, on `match(15)(pattern(10) = 1, pattern(5) = 2, pattern(3) = 3)`: the result
is the empty optional. -/
theorem no_match_yields_empty_witness :
    ∃ out, match_helper.call (TypeEnv.uniform Value) (match_ [Value.int 15])
        [example_value_arm 10 1, example_value_arm 5 2, example_value_arm 3 3] (0 : Nat)
          = some out ∧
      out.returned = Returned.optional none ∧
      out.state = 0 ∧ ∀ i, Event.invoked i ∉ out.trace :=
  no_match_yields_empty (TypeEnv.uniform Value) (match_ [Value.int 15])
    [example_value_arm 10 1, example_value_arm 5 2, example_value_arm 3 3] 0 0
    (by simp)
    (by
      intro a ha
      simp only [List.mem_cons, List.mem_singleton, List.not_mem_nil, or_false] at ha
      rcases ha with rfl | rfl | rfl <;> rfl)
    rfl

/-- What the trace of a call holds when the arms of `pre` are rejected and the check of
`m`, whose result is a callable, succeeds. -/
theorem match_helper.trace_of_first_match {σ S V : Type} [StringLike S] (env : TypeEnv V)
    (h : match_helper S) (pre : List (matcher σ S V)) (m : matcher σ S V)
    (post : List (matcher σ S V)) (st st1 : σ) (c : Checked σ)
    (harity : ∀ a ∈ pre ++ m :: post, a.capture_count = h.expressions_.length)
    (hpre : rejects_all h.expressions_ pre st = some st1)
    (hm : m.check h.expressions_ st1 = some c) (hok : c.ok = true)
    (hcalls : (m.get Qualifier.rvalue h.expressions_).calls = true) :
    ∃ out, match_helper.call env h (pre ++ m :: post) st = some out ∧
      out.trace.count (Event.invoked pre.length) = 1 ∧
      (∀ j, j ≠ pre.length → Event.invoked j ∉ out.trace) ∧
      (∀ j p, pre.length < j → Event.evaluated j p ∉ out.trace) ∧
      out.state = ((m.get Qualifier.rvalue h.expressions_).run c.state).2 := by
  obtain ⟨tr, htr, hcall⟩ := match_helper.call_first_match env h pre m post st st1 c harity hpre hm hok
  refine ⟨_, hcall, ?_, ?_, ?_, rfl⟩
  · have h1 : tr.count (Event.invoked pre.length) = 0 := by
      apply List.count_eq_zero.2
      intro hi
      obtain ⟨a, p, hap, -⟩ := htr _ hi
      cases hap
    have h2 : (c.evaluated.map (Event.evaluated pre.length)).count (Event.invoked pre.length)
        = 0 := by
      apply List.count_eq_zero.2
      intro hi
      obtain ⟨p, -, hp⟩ := List.mem_map.1 hi
      cases hp
    simp only [hcalls, if_true, List.count_append, h1, h2, List.count_singleton_self]
  · intro j hj hi
    simp only [hcalls, if_true, List.mem_append, List.mem_map, List.mem_singleton] at hi
    rcases hi with hi | ⟨p, -, hp⟩ | hi
    · obtain ⟨a, p, hap, -⟩ := htr _ hi
      cases hap
    · cases hp
    · cases hi
      exact hj rfl
  · intro j p hj hi
    simp only [hcalls, if_true, List.mem_append, List.mem_map, List.mem_singleton] at hi
    rcases hi with hi | ⟨q, -, hq⟩ | hi
    · obtain ⟨a, q, haq, ha⟩ := htr _ hi
      cases haq
      omega
    · cases hq
      omega
    · cases hi

/-- C3. In either mode, when the arms before `m` are rejected and the check of `m`,
whose result is a callable, succeeds: that callable is invoked exactly once, from the
state its check leaves; the result callable of no other arm is invoked; and no
pattern term of an arm declared after `m` is evaluated. -/
theorem resolution_stops_at_winner {σ S V : Type} [StringLike S] (env : TypeEnv V)
    (h : match_helper S) (pre : List (matcher σ S V)) (m : matcher σ S V)
    (post : List (matcher σ S V)) (st st1 : σ) (c : Checked σ)
    (harity : ∀ a ∈ pre ++ m :: post, a.capture_count = h.expressions_.length)
    (hpre : rejects_all h.expressions_ pre st = some st1)
    (hm : m.check h.expressions_ st1 = some c) (hok : c.ok = true)
    (hcalls : (m.get Qualifier.rvalue h.expressions_).calls = true) :
    ∃ out, match_helper.call env h (pre ++ m :: post) st = some out ∧
      out.trace.count (Event.invoked pre.length) = 1 ∧
      (∀ j, j ≠ pre.length → Event.invoked j ∉ out.trace) ∧
      (∀ j p, pre.length < j → Event.evaluated j p ∉ out.trace) ∧
      out.state = ((m.get Qualifier.rvalue h.expressions_).run c.state).2 :=
  match_helper.trace_of_first_match env h pre m post st st1 c harity hpre hm hok hcalls

/-- C3, on "Simple matcher catch one from all same types" with `x = 5`: only the
callable of the second arm runs, once, and leaves `matched_pattern == 2`. -/
theorem resolution_stops_at_winner_witness :
    ∃ out, match_helper.call (TypeEnv.uniform Value) (match_ [Value.int 5])
        example_action_arms 0 = some out ∧
      out.trace.count (Event.invoked 1) = 1 ∧
      (∀ j, j ≠ 1 → Event.invoked j ∉ out.trace) ∧
      (∀ j p, 1 < j → Event.evaluated j p ∉ out.trace) ∧
      out.state = 2 :=
  resolution_stops_at_winner (TypeEnv.uniform Value) (match_ [Value.int 5])
    (example_action_arms.take 1) (example_action_arms.get ⟨1, by decide⟩)
    (example_action_arms.drop 2) 0 0 { ok := true, state := 0, evaluated := [0] }
    (by
      intro a ha
      simp only [example_action_arms, List.take, List.drop, List.get, List.singleton_append,
        List.mem_cons, List.mem_singleton, List.not_mem_nil, or_false] at ha
      rcases ha with rfl | rfl | rfl | rfl <;> rfl)
    rfl rfl rfl rfl

/-- C10. When some arm of a match call produces a value and the value-producing arms
have the common type `R`, the call is in value mode with result type `R`. If then the
arms before `m` are rejected and the check of `m`, whose result is a callable
returning `void`, succeeds: that action is run, the returned optional is empty, and no
arm declared after `m` is checked or invoked. -/
theorem void_arm_wins_in_value_mode {σ S V : Type} [StringLike S] (env : TypeEnv V)
    (h : match_helper S) (pre : List (matcher σ S V)) (m : matcher σ S V)
    (post : List (matcher σ S V)) (st st1 : σ) (c : Checked σ) (R : Ty) (act : σ → σ)
    (harity : ∀ a ∈ pre ++ m :: post, a.capture_count = h.expressions_.length)
    (hsome : ∃ a ∈ pre ++ m :: post, (test_expressions a h.expressions_).type ≠ Ty.void)
    (hcommon : env.std_common_type (non_void_common_type
      ((pre ++ m :: post).map (fun a => (test_expressions a h.expressions_).type))) = some R)
    (hfound : R ≠ Ty.not_found_t)
    (hpre : rejects_all h.expressions_ pre st = some st1)
    (hm : m.check h.expressions_ st1 = some c) (hok : c.ok = true)
    (hvoid : m.get Qualifier.rvalue h.expressions_ = Got.action act) :
    match_helper.ReturnType env h (pre ++ m :: post) = R ∧
    ∃ out, match_helper.call env h (pre ++ m :: post) st = some out ∧
      out.returned = Returned.optional none ∧
      out.state = act c.state ∧
      out.trace.count (Event.invoked pre.length) = 1 ∧
      (∀ j, pre.length < j → Event.invoked j ∉ out.trace) ∧
      (∀ j p, pre.length < j → Event.evaluated j p ∉ out.trace) := by
  have hRT : match_helper.ReturnType env h (pre ++ m :: post) = R := by
    obtain ⟨a, ha, hav⟩ := hsome
    have hmem : (test_expressions a h.expressions_).type ∈ non_void_common_type
        ((pre ++ m :: post).map (fun a => (test_expressions a h.expressions_).type)) :=
      (mem_non_void_common_type _ _).2 ⟨List.mem_map.2 ⟨a, ha, rfl⟩, hav⟩
    unfold match_helper.ReturnType non_void_common_type_t
    cases hl : non_void_common_type
        ((pre ++ m :: post).map (fun a => (test_expressions a h.expressions_).type)) with
    | nil => rw [hl] at hmem; cases hmem
    | cons T Ts =>
      rw [hl] at hcommon
      simp only [common_type, common_type_or, hcommon]
  refine ⟨hRT, ?_⟩
  have hcalls : (m.get Qualifier.rvalue h.expressions_).calls = true := by rw [hvoid]; rfl
  obtain ⟨out, hout, hcount, hinv, hev, hstate⟩ :=
    match_helper.trace_of_first_match env h pre m post st st1 c harity hpre hm hok hcalls
  obtain ⟨tr, -, hcall⟩ := match_helper.call_first_match env h pre m post st st1 c harity hpre hm hok
  rw [hcall] at hout
  cases hout
  refine ⟨_, hcall, ?_, ?_, hcount, fun j hj => hinv j (Nat.ne_of_gt hj), hev⟩
  · have hl : (m.get Qualifier.lvalue h.expressions_).type = Ty.void := by
      show (m.get Qualifier.rvalue h.expressions_).type = Ty.void
      rw [hvoid]; rfl
    rw [hRT] at *
    simp only [if_neg hfound, invoke_result_expressions, if_pos hl]
  · simp only [hvoid, Got.run]

/-- C10, on `match(5)(pattern(10) = [] {}, pattern(5) = [] {}, pattern(3) = [] {},
pattern(_) = 4)`: the call returns an `optional<int>`, which is empty. -/
theorem void_arm_wins_in_value_mode_witness :
    match_helper.ReturnType (TypeEnv.uniform Value) (match_ [Value.int 5]) example_void_arms
      = Ty.int ∧
    ∃ out, match_helper.call (TypeEnv.uniform Value) (match_ [Value.int 5])
        example_void_arms 0 = some out ∧
      out.returned = Returned.optional none ∧
      out.state = 0 ∧
      out.trace.count (Event.invoked 1) = 1 ∧
      (∀ j, 1 < j → Event.invoked j ∉ out.trace) ∧
      (∀ j p, 1 < j → Event.evaluated j p ∉ out.trace) :=
  void_arm_wins_in_value_mode (TypeEnv.uniform Value) (match_ [Value.int 5])
    (example_void_arms.take 1) (example_void_arms.get ⟨1, by decide⟩)
    (example_void_arms.drop 2) 0 0 { ok := true, state := 0, evaluated := [0] } Ty.int
    (fun st => st)
    (by
      intro a ha
      simp only [example_void_arms, List.take, List.drop, List.get, List.singleton_append,
        List.mem_cons, List.mem_singleton, List.not_mem_nil, or_false] at ha
      rcases ha with rfl | rfl | rfl | rfl <;> rfl)
    ⟨(pattern [wildcard.underscore Nat Value]).assign (ResultExpr.plain Ty.int (Value.int 4)),
      by simp [example_void_arms], by decide⟩
    rfl (by decide) rfl rfl rfl rfl

/-! ## Acceptance of a match call -/

/-- C5. For a matcher of arity `k` and `k` subjects, with pattern terms whose
evaluation against their subject leaves the state unchanged, `check` is true exactly
when `evaluate_match` is true at every position. -/
theorem check_iff_every_position_matches {σ S V : Type} [StringLike S] (m : matcher σ S V)
    (values : List S) (st : σ) (harity : m.capture_count = values.length)
    (hread : ∀ i p s, m.args_.get? i = some p → values.get? i = some s →
      (evaluate_match p s st).2 = st) :
    ∃ c, m.check values st = some c ∧ c.state = st ∧
      (c.ok = true ↔ ∀ i p s, m.args_.get? i = some p → values.get? i = some s →
        (evaluate_match p s st).1 = true) := by
  obtain ⟨c, hc, hcs, hco⟩ := tuple_unpacker.apply_read_only
    (fun (x : Term σ S) (y : S) => evaluate_match x y) values.length m.args_ values st
    (Nat.le_of_eq harity.symm) (Nat.le_refl _) (fun i x y _ hx hy => hread i x y hx hy)
  refine ⟨c, hc, hcs, ?_⟩
  rw [hco]
  constructor
  · intro hall i p s hp hs
    have hi : i < values.length := by
      by_contra hge
      rw [List.get?_eq_none.2 (Nat.le_of_not_lt hge)] at hs
      cases hs
    exact hall i p s hi hp hs
  · intro hall i p s _ hp hs
    exact hall i p s hp hs

/-- C5, on `pattern(42, _)` checked against `(42, 1337)`. -/
theorem check_iff_every_position_matches_witness :
    ∃ c, ((pattern [Term.literal (Value.int 42), wildcard.underscore Nat Value]).assign
        (ResultExpr.plain Ty.int (Value.int 1))).check [Value.int 42, Value.int 1337] 0 = some c ∧
      c.state = 0 ∧
      (c.ok = true ↔ ∀ i p s,
        [Term.literal (Value.int 42), wildcard.underscore Nat Value].get? i = some p →
        [Value.int 42, Value.int 1337].get? i = some s → (evaluate_match p s 0).1 = true) :=
  check_iff_every_position_matches
    ((pattern [Term.literal (Value.int 42), wildcard.underscore Nat Value]).assign
      (ResultExpr.plain Ty.int (Value.int 1))) [Value.int 42, Value.int 1337] 0 rfl
    (by
      intro i p s hp hs
      match i, hp, hs with
      | 0, hp, hs => cases hp; cases hs; rfl
      | 1, hp, hs => cases hp; cases hs; rfl
      | (n + 2), hp, _ => cases hp)

/-! ## `evaluate_match` and the wildcard -/

/-- C6. `evaluate_match(lhs, rhs)` is the call `lhs(rhs)` converted to `bool` when
the term is invocable on the subject; otherwise, when both are string-like, equality
of their character contents; otherwise `lhs == rhs`. A literal `c` matches the
subject `s` exactly when `c = s`. -/
theorem evaluate_match_cases {σ S : Type} [StringLike S] (lhs : Term σ S) (rhs : S) (st : σ) :
    (∀ f, lhs.invoke = some f → evaluate_match lhs rhs st = f rhs st) ∧
    (∀ a b, lhs.invoke = none → lhs.string_view = some a →
      StringLike.string_view rhs = some b → evaluate_match lhs rhs st = (a == b, st)) ∧
    (lhs.invoke = none → (lhs.string_view = none ∨ StringLike.string_view rhs = none) →
      evaluate_match lhs rhs st = lhs.equals rhs st) ∧
    (∀ c s : Value, evaluate_match (Term.literal c) s st = (decide (c = s), st)) := by
  refine ⟨?_, ?_, ?_, ?_⟩
  · intro f hf
    simp only [evaluate_match, hf]
  · intro a b hi ha hb
    simp only [evaluate_match, hi, ha, hb]
  · intro hi hs
    rcases hs with hs | hs
    · simp only [evaluate_match, hi, hs]
    · cases ha : lhs.string_view <;> simp only [evaluate_match, hi, ha, hs]
  · intro c s
    cases c <;> cases s <;>
      simp [evaluate_match, Term.literal, StringLike.string_view, beq_eq_decide]

/-- C6, on a term that is both invocable (answering `false`) and string-like, against
an equal string: the call decides; and on the same term without the call, the
contents do. -/
theorem evaluate_match_cases_witness :
    evaluate_match
        ({ invoke := some (fun _ st => (false, st)), string_view := some "abc",
           equals := fun _ st => (true, st) } : Term Nat Value) (Value.string "abc") 0
      = (false, 0) ∧
    evaluate_match
        ({ invoke := none, string_view := some "abc",
           equals := fun _ st => (false, st) } : Term Nat Value) (Value.string "abc") 0
      = ("abc" == "abc", 0) ∧
    evaluate_match
        ({ invoke := none, string_view := none,
           equals := fun _ st => (true, st + 1) } : Term Nat Value) (Value.string "abc") 0
      = (true, 1) :=
  ⟨(evaluate_match_cases _ (Value.string "abc") 0).1 _ rfl,
    (evaluate_match_cases _ (Value.string "abc") 0).2.1 "abc" "abc" rfl rfl rfl,
    (evaluate_match_cases
      ({ invoke := none, string_view := none,
         equals := fun _ st => (true, st + 1) } : Term Nat Value)
      (Value.string "abc") 0).2.2.1 rfl (Or.inl rfl)⟩

/-- C7. The wildcard `_` matches every subject of every type, leaving the state as
it is; and for every tuple of subjects the matcher of that arity whose pattern terms
are all `_` passes its check. -/
theorem wildcard_matches_everything {σ S V : Type} [StringLike S] (s : S)
    (r : ResultExpr σ S V) (values : List S) (st : σ) :
    evaluate_match (wildcard.underscore σ S) s st = (true, st) ∧
    ∃ c, ((pattern (List.replicate values.length (wildcard.underscore σ S))).assign r).check
        values st = some c ∧ c.ok = true ∧ c.state = st := by
  refine ⟨rfl, ?_⟩
  obtain ⟨c, hc, hcs, hco⟩ := tuple_unpacker.apply_read_only
    (fun (x : Term σ S) (y : S) => evaluate_match x y) values.length
    (List.replicate values.length (wildcard.underscore σ S)) values st
    (by simp) (Nat.le_refl _)
    (by
      intro i x y _ hx _
      rw [List.get?_eq_some] at hx
      obtain ⟨_, hx⟩ := hx
      simp only [List.get_eq_getElem, List.getElem_replicate] at hx
      subst hx
      rfl)
  refine ⟨c, hc, hco.2 ?_, hcs⟩
  intro i x y _ hx _
  rw [List.get?_eq_some] at hx
  obtain ⟨_, hx⟩ := hx
  simp only [List.get_eq_getElem, List.getElem_replicate] at hx
  subst hx
  rfl

/-- C8, as the code has it: `_ != x` with the wildcard on the left is `false`, on
`x = 5` for one; each of the other eleven operator and side combinations is `true`. -/
theorem wildcard_not_equal_left_is_false :
    wildcard.compare RelOp.ne Side.left (Value.int 5) = false ∧
    ∀ (T : Type) (op : RelOp) (side : Side) (x : T),
      wildcard.compare op side x = !decide (op = RelOp.ne ∧ side = Side.left) := by
  refine ⟨rfl, ?_⟩
  intro T op side x
  cases op <;> cases side <;> rfl

/-! ## The result of a matcher -/

/-- C9. `get` yields `r()` when the stored result `r` is callable without argument,
also when it is callable with the subjects as well; otherwise `r(s1, ..., sk)` on the
subjects in the order given, when that call is possible; otherwise `r` itself. The
overloads for a non-const matcher (the one that won is such) test `r`, the `const`
overloads test `r` as a `const` object. -/
theorem get_selects_result {σ S V : Type} (m : matcher σ S V) (q : Qualifier) (values : List S) :
    (∀ c, (if q.is_const then m.result_.const_call0 else m.result_.call0) = some c →
      m.get q values = c.bind ()) ∧
    (∀ c, (if q.is_const then m.result_.const_call0 else m.result_.call0) = none →
      (if q.is_const then m.result_.const_callN else m.result_.callN) = some c →
      m.get q values = c.bind values) ∧
    ((if q.is_const then m.result_.const_call0 else m.result_.call0) = none →
      (if q.is_const then m.result_.const_callN else m.result_.callN) = none →
      m.get q values = Got.stored m.result_.type m.result_.value) := by
  cases q <;>
    simp only [Qualifier.is_const, Bool.false_eq_true, if_false, if_true] <;>
    refine ⟨?_, ?_, ?_⟩
  all_goals first
    | (intro c h0 hN; simp only [matcher.get, h0, hN])
    | (intro h0 hN; simp only [matcher.get, h0, hN])
    | (intro c h0; simp only [matcher.get, h0])

/-- C9, on a result callable both without argument (returning 1) and with the
subject (returning 2), bound to `pattern(_)`: the winning matcher produces `r()`. -/
theorem get_selects_result_witness :
    example_overloaded_arm.get Qualifier.rvalue [Value.int 5]
      = Got.computed Ty.int (fun st => (Value.int 1, st)) :=
  (get_selects_result example_overloaded_arm Qualifier.rvalue [Value.int 5]).1
    (Call.func Ty.int (fun _ st => (Value.int 1, st))) rfl

/-! ## Result-type unification -/

theorem non_void_common_type_append (xs ys : List Ty) :
    non_void_common_type (xs ++ ys) = non_void_common_type ys ++ non_void_common_type xs := by
  induction xs with
  | nil => simp [non_void_common_type]
  | cons x xs ih =>
    by_cases hx : x = Ty.void
    · simp [non_void_common_type, hx, ih]
    · simp [non_void_common_type, hx, ih, append_type, List.append_assoc]

theorem non_void_common_type_eq_nil_iff (Ts : List Ty) :
    non_void_common_type Ts = [] ↔ ∀ t ∈ Ts, t = Ty.void := by
  constructor
  · intro hnil t ht
    by_contra hne
    have hmem := (mem_non_void_common_type t Ts).2 ⟨ht, hne⟩
    rw [hnil] at hmem
    cases hmem
  · intro hall
    cases hl : non_void_common_type Ts with
    | nil => rfl
    | cons T rest =>
      have hmem : T ∈ non_void_common_type Ts := by rw [hl]; exact List.mem_cons_self _ _
      obtain ⟨hT, hne⟩ := (mem_non_void_common_type T Ts).1 hmem
      exact absurd (hall T hT) hne

theorem non_void_common_type_of_no_void (Ts : List Ty) (h : ∀ t ∈ Ts, t ≠ Ty.void) :
    non_void_common_type Ts = Ts.reverse := by
  induction Ts with
  | nil => rfl
  | cons T rest ih =>
    have hT : T ≠ Ty.void := h T (List.mem_cons_self _ _)
    simp [non_void_common_type, hT, append_type,
      ih (fun t ht => h t (List.mem_cons_of_mem _ ht))]

theorem non_void_common_type_t_eq_not_found_iff {V : Type} (env : TypeEnv V) (Ts : List Ty) :
    non_void_common_type_t env Ts = Ty.not_found_t ↔
      (∀ t ∈ Ts, t = Ty.void) ∨
      env.std_common_type (non_void_common_type Ts) = none ∨
      env.std_common_type (non_void_common_type Ts) = some Ty.not_found_t := by
  rw [← non_void_common_type_eq_nil_iff]
  unfold non_void_common_type_t
  cases hl : non_void_common_type Ts with
  | nil => simp [common_type]
  | cons T rest =>
    cases hc : env.std_common_type (T :: rest) with
    | none => simp [common_type, common_type_or, hc]
    | some c => simp [common_type, common_type_or, hc]

theorem match_helper.call_void_mode {σ S V : Type} [StringLike S] (env : TypeEnv V)
    (h : match_helper S) (arms : List (matcher σ S V)) (st : σ) (hne : arms ≠ [])
    (harity : ∀ a ∈ arms, a.capture_count = h.expressions_.length)
    (hmode : match_helper.ReturnType env h arms = Ty.not_found_t) :
    ∃ out, match_helper.call env h arms st = some out ∧ out.returned = Returned.void := by
  have hreq := (requires_clause_matchers h.expressions_.length arms).2 ⟨hne, harity⟩
  obtain ⟨r, hr⟩ := match_helper.fold_isSome invoke_expressions h.expressions_ arms
    harity 0 () st
  refine ⟨{ returned := Returned.void, state := r.state, trace := r.trace }, ?_, rfl⟩
  unfold match_helper.call
  rw [if_pos hreq, if_pos hmode, hr]

theorem match_helper.call_value_mode {σ S V : Type} [StringLike S] (env : TypeEnv V)
    (h : match_helper S) (arms : List (matcher σ S V)) (st : σ) (hne : arms ≠ [])
    (harity : ∀ a ∈ arms, a.capture_count = h.expressions_.length)
    (hmode : match_helper.ReturnType env h arms ≠ Ty.not_found_t) :
    ∃ out o, match_helper.call env h arms st = some out ∧
      out.returned = Returned.optional o := by
  have hreq := (requires_clause_matchers h.expressions_.length arms).2 ⟨hne, harity⟩
  obtain ⟨r, hr⟩ := match_helper.fold_isSome
    (invoke_result_expressions env (match_helper.ReturnType env h arms)) h.expressions_ arms
    harity 0 none st
  refine ⟨{ returned := Returned.optional r.result, state := r.state, trace := r.trace },
    r.result, ?_, rfl⟩
  unfold match_helper.call
  rw [if_pos hreq, if_neg hmode, hr]

/-- C11, as stated, fails: on `match(111)(pattern(10) = [] {}, pattern(5) = [] {},
pattern(3) = [] {}, pattern(_) = 4)`, three void arms and one `int` arm, the result
type is `int` and the call returns an optional holding 4; with the subject 5 it
returns an empty optional, not nothing. -/
theorem single_value_arm_is_not_void_mode :
    match_helper.ReturnType (TypeEnv.uniform Value) (match_ [Value.int 111]) example_void_arms
      = Ty.int ∧
    (match_helper.call (TypeEnv.uniform Value) (match_ [Value.int 111])
        example_void_arms 0).map Outcome.returned
      = some (Returned.optional (some (Value.int 4))) ∧
    (match_helper.call (TypeEnv.uniform Value) (match_ [Value.int 5])
        example_void_arms 0).map Outcome.returned
      = some (Returned.optional none) := by
  refine ⟨rfl, rfl, rfl⟩

/-- C11, amended. A match call whose arms all produce `void` except one, of type `T`,
is in value mode when `T` alone has a common type `R`: the result type is `R` and the
call returns an optional, which is empty when an arm producing `void` wins and when no
arm matches. -/
theorem single_value_arm_gives_value_mode {σ S V : Type} [StringLike S] (env : TypeEnv V)
    (h : match_helper S) (pre : List (matcher σ S V)) (a : matcher σ S V)
    (post : List (matcher σ S V)) (st : σ) (R : Ty)
    (harity : ∀ b ∈ pre ++ a :: post, b.capture_count = h.expressions_.length)
    (hpre : ∀ b ∈ pre, (test_expressions b h.expressions_).type = Ty.void)
    (hpost : ∀ b ∈ post, (test_expressions b h.expressions_).type = Ty.void)
    (ha : (test_expressions a h.expressions_).type ≠ Ty.void)
    (hcommon : env.std_common_type [(test_expressions a h.expressions_).type] = some R)
    (hfound : R ≠ Ty.not_found_t) :
    match_helper.ReturnType env h (pre ++ a :: post) = R ∧
    ∃ out o, match_helper.call env h (pre ++ a :: post) st = some out ∧
      out.returned = Returned.optional o ∧
      (∀ l m r st1 c, pre ++ a :: post = l ++ m :: r →
        rejects_all h.expressions_ l st = some st1 →
        m.check h.expressions_ st1 = some c → c.ok = true →
        (m.get Qualifier.lvalue h.expressions_).type = Ty.void → o = none) ∧
      (∀ st1, rejects_all h.expressions_ (pre ++ a :: post) st = some st1 → o = none) := by
  have hnil : ∀ l : List (matcher σ S V),
      (∀ b ∈ l, (test_expressions b h.expressions_).type = Ty.void) →
      non_void_common_type (l.map (fun b => (test_expressions b h.expressions_).type)) = [] := by
    intro l hl
    apply (non_void_common_type_eq_nil_iff _).2
    intro t ht
    obtain ⟨b, hb, rfl⟩ := List.mem_map.1 ht
    exact hl b hb
  have hRT : match_helper.ReturnType env h (pre ++ a :: post) = R := by
    unfold match_helper.ReturnType non_void_common_type_t
    rw [List.map_append, List.map_cons, non_void_common_type_append, non_void_common_type,
      if_neg ha, hnil post hpost, hnil pre hpre]
    simp [append_type, common_type, common_type_or, hcommon]
  have hmode : match_helper.ReturnType env h (pre ++ a :: post) ≠ Ty.not_found_t := by
    rw [hRT]; exact hfound
  refine ⟨hRT, ?_⟩
  obtain ⟨out, o, hcall, hret⟩ :=
    match_helper.call_value_mode env h (pre ++ a :: post) st (by simp) harity hmode
  refine ⟨out, o, hcall, hret, ?_, ?_⟩
  · intro l m r st1 c heq hrej hm hok hvoid
    obtain ⟨tr, -, hfirst⟩ := match_helper.call_first_match env h l m r st st1 c
      (by rw [← heq]; exact harity) hrej hm hok
    rw [← heq, hcall] at hfirst
    have hout := Option.some.inj hfirst
    rw [hout] at hret
    simp only [if_neg hmode, invoke_result_expressions, if_pos hvoid,
      Returned.optional.injEq] at hret
    exact hret.symm
  · intro st1 hrej
    obtain ⟨tr, -, hf⟩ := match_helper.fold_no_match
      (invoke_result_expressions env (match_helper.ReturnType env h (pre ++ a :: post)))
      h.expressions_ (pre ++ a :: post) 0 none st st1 hrej
    have hreq := (requires_clause_matchers h.expressions_.length (pre ++ a :: post)).2
      ⟨by simp, harity⟩
    unfold match_helper.call at hcall
    rw [if_pos hreq, if_neg hmode, hf] at hcall
    have hout := Option.some.inj hcall
    rw [← hout] at hret
    simp only [Returned.optional.injEq] at hret
    exact hret.symm

/-- C11 amended, on `match(5)(pattern(10) = [] {}, pattern(5) = [] {},
pattern(3) = [] {}, pattern(_) = 4)`. -/
theorem single_value_arm_gives_value_mode_witness :
    match_helper.ReturnType (TypeEnv.uniform Value) (match_ [Value.int 5]) example_void_arms
      = Ty.int ∧
    ∃ out o, match_helper.call (TypeEnv.uniform Value) (match_ [Value.int 5])
        example_void_arms 0 = some out ∧ out.returned = Returned.optional o ∧
      (∀ l m r st1 c, example_void_arms = l ++ m :: r →
        rejects_all (match_ [Value.int 5]).expressions_ l 0 = some st1 →
        m.check (match_ [Value.int 5]).expressions_ st1 = some c → c.ok = true →
        (m.get Qualifier.lvalue (match_ [Value.int 5]).expressions_).type = Ty.void →
        o = none) ∧
      (∀ st1, rejects_all (match_ [Value.int 5]).expressions_ example_void_arms 0 = some st1 →
        o = none) :=
  single_value_arm_gives_value_mode (TypeEnv.uniform Value) (match_ [Value.int 5])
    (example_void_arms.take 3) (example_void_arms.get ⟨3, by decide⟩) [] 0 Ty.int
    (by
      intro b hb
      simp only [example_void_arms, List.take, List.get, List.cons_append, List.nil_append,
        List.mem_cons, List.mem_singleton, List.not_mem_nil, or_false] at hb
      rcases hb with rfl | rfl | rfl | rfl <;> rfl)
    (by
      intro b hb
      simp only [example_void_arms, List.take, List.mem_cons, List.mem_singleton,
        List.not_mem_nil, or_false] at hb
      rcases hb with rfl | rfl | rfl <;> rfl)
    (by intro b hb; cases hb)
    (by decide) rfl (by decide)

/-- C12. A match call whose non-void result types have no common type is accepted
and is in void mode: it returns nothing. The result of the winning arm is evaluated
(the state is the one its evaluation leaves, and its callable, if it is one, is
invoked) and discarded. -/
theorem incompatible_types_give_void_mode {σ S V : Type} [StringLike S] (env : TypeEnv V)
    (h : match_helper S) (pre : List (matcher σ S V)) (m : matcher σ S V)
    (post : List (matcher σ S V)) (st st1 : σ) (c : Checked σ)
    (harity : ∀ a ∈ pre ++ m :: post, a.capture_count = h.expressions_.length)
    (hnone : env.std_common_type (non_void_common_type
      ((pre ++ m :: post).map (fun a => (test_expressions a h.expressions_).type))) = none)
    (hpre : rejects_all h.expressions_ pre st = some st1)
    (hm : m.check h.expressions_ st1 = some c) (hok : c.ok = true) :
    match_helper.ReturnType env h (pre ++ m :: post) = Ty.not_found_t ∧
    ∃ out, match_helper.call env h (pre ++ m :: post) st = some out ∧
      out.returned = Returned.void ∧
      out.state = ((m.get Qualifier.rvalue h.expressions_).run c.state).2 ∧
      (Event.invoked pre.length ∈ out.trace ↔
        (m.get Qualifier.rvalue h.expressions_).calls = true) := by
  have hRT : match_helper.ReturnType env h (pre ++ m :: post) = Ty.not_found_t :=
    (non_void_common_type_t_eq_not_found_iff env _).2 (Or.inr (Or.inl hnone))
  refine ⟨hRT, ?_⟩
  obtain ⟨tr, htr, hcall⟩ := match_helper.call_first_match env h pre m post st st1 c harity
    hpre hm hok
  refine ⟨_, hcall, ?_, rfl, ?_⟩
  · simp only [hRT, if_true]
  · simp only [List.mem_append, List.mem_map]
    constructor
    · rintro (hi | ⟨p, -, hp⟩ | hi)
      · obtain ⟨a, p, hap, -⟩ := htr _ hi
        cases hap
      · cases hp
      · by_contra hcalls
        simp [hcalls] at hi
    · intro hcalls
      right
      right
      simp [hcalls]

/-- C12, on `match(5)(pattern(_) = 1, pattern(_) = std::string(""))`: `int` and
`std::string` have no common type, the call returns nothing. -/
theorem incompatible_types_give_void_mode_witness :
    match_helper.ReturnType (TypeEnv.uniform Value) (match_ [Value.int 5])
      example_incompatible_arms = Ty.not_found_t ∧
    ∃ out, match_helper.call (TypeEnv.uniform Value) (match_ [Value.int 5])
        example_incompatible_arms 0 = some out ∧
      out.returned = Returned.void ∧
      out.state = 0 ∧
      (Event.invoked 0 ∈ out.trace ↔ false = true) :=
  incompatible_types_give_void_mode (TypeEnv.uniform Value) (match_ [Value.int 5])
    [] (example_incompatible_arms.get ⟨0, by decide⟩) (example_incompatible_arms.drop 1)
    0 0 { ok := true, state := 0, evaluated := [0] }
    (by
      intro a ha
      simp only [example_incompatible_arms, List.drop, List.get, List.nil_append,
        List.mem_cons, List.mem_singleton, List.not_mem_nil, or_false] at ha
      rcases ha with rfl | rfl <;> rfl)
    rfl rfl rfl rfl

/-- C13, as stated, fails: `match(5)(pattern(_) = 1, pattern(_) = std::string(""))`,
whose result types `int` and `std::string` are not void and have no common type,
compiles and returns nothing. -/
theorem incompatible_types_are_accepted :
    (match_helper.call (TypeEnv.uniform Value) (match_ [Value.int 5])
        example_incompatible_arms 0).map Outcome.returned = some Returned.void ∧
    (TypeEnv.uniform Value).std_common_type [Ty.string, Ty.int] = none ∧
    example_incompatible_arms.map
        (fun a => (test_expressions a [Value.int 5]).type) = [Ty.int, Ty.string] := by
  refine ⟨rfl, rfl, rfl⟩

/-- C13, amended. A match call with at least one matcher, each of the arity of the
subjects, is accepted whatever its result types are, and it is in void mode exactly
when every result type is `void`, or the non-void result types have no common type,
or that common type is `not_found_t`. -/
theorem void_mode_iff {σ S V : Type} [StringLike S] (env : TypeEnv V)
    (h : match_helper S) (arms : List (matcher σ S V)) (st : σ) (hne : arms ≠ [])
    (harity : ∀ a ∈ arms, a.capture_count = h.expressions_.length) :
    ∃ out, match_helper.call env h arms st = some out ∧
      (out.returned = Returned.void ↔
        (∀ a ∈ arms, (test_expressions a h.expressions_).type = Ty.void) ∨
        env.std_common_type (non_void_common_type
          (arms.map (fun a => (test_expressions a h.expressions_).type))) = none ∨
        env.std_common_type (non_void_common_type
          (arms.map (fun a => (test_expressions a h.expressions_).type)))
            = some Ty.not_found_t) := by
  have hiff := non_void_common_type_t_eq_not_found_iff env
    (arms.map (fun a => (test_expressions a h.expressions_).type))
  have hall : (∀ t ∈ arms.map (fun a => (test_expressions a h.expressions_).type),
      t = Ty.void) ↔ ∀ a ∈ arms, (test_expressions a h.expressions_).type = Ty.void := by
    simp
  rw [hall] at hiff
  by_cases hmode : match_helper.ReturnType env h arms = Ty.not_found_t
  · obtain ⟨out, hout, hret⟩ := match_helper.call_void_mode env h arms st hne harity hmode
    exact ⟨out, hout, ⟨fun _ => hiff.1 hmode, fun _ => hret⟩⟩
  · obtain ⟨out, o, hout, hret⟩ := match_helper.call_value_mode env h arms st hne harity hmode
    refine ⟨out, hout, ⟨fun hv => ?_, fun hc => absurd (hiff.2 hc) hmode⟩⟩
    rw [hret] at hv
    cases hv

/-- C13 amended, on `match(5)(pattern(_) = 1, pattern(_) = std::string(""))`. -/
theorem void_mode_iff_witness :
    ∃ out, match_helper.call (TypeEnv.uniform Value) (match_ [Value.int 5])
        example_incompatible_arms 0 = some out ∧
      (out.returned = Returned.void ↔
        (∀ a ∈ example_incompatible_arms,
          (test_expressions a (match_ [Value.int 5]).expressions_).type = Ty.void) ∨
        (TypeEnv.uniform Value).std_common_type (non_void_common_type
          (example_incompatible_arms.map
            (fun a => (test_expressions a (match_ [Value.int 5]).expressions_).type))) = none ∨
        (TypeEnv.uniform Value).std_common_type (non_void_common_type
          (example_incompatible_arms.map
            (fun a => (test_expressions a (match_ [Value.int 5]).expressions_).type)))
            = some Ty.not_found_t) :=
  void_mode_iff (TypeEnv.uniform Value) (match_ [Value.int 5]) example_incompatible_arms 0
    (by simp [example_incompatible_arms])
    (by
      intro a ha
      simp only [example_incompatible_arms, List.mem_cons, List.mem_singleton,
        List.not_mem_nil, or_false] at ha
      rcases ha with rfl | rfl <;> rfl)

/-! ## Integer result types -/

theorem std_common_type_pair_integer (long_bits : Nat) (a b : Ty)
    (ha : a.is_integer = true) (hb : b.is_integer = true) :
    ∃ c, std_common_type_pair long_bits a b = some c ∧ c.is_integer = true := by
  cases a <;> simp only [Ty.is_integer, Bool.false_eq_true] at ha <;>
    cases b <;> simp only [Ty.is_integer, Bool.false_eq_true] at hb <;>
    simp [std_common_type_pair, usual_arithmetic_conversions, integral_promotion, Ty.rank,
      Ty.is_unsigned, Ty.bits, Ty.to_unsigned, Ty.is_integer] <;>
    split_ifs <;> rfl

theorem std_common_type_pair_unsigned_long_long (long_bits : Nat) (a : Ty)
    (ha : a.is_integer = true) :
    std_common_type_pair long_bits Ty.unsigned_long_long a = some Ty.unsigned_long_long ∧
    std_common_type_pair long_bits a Ty.unsigned_long_long = some Ty.unsigned_long_long := by
  cases a <;> simp only [Ty.is_integer, Bool.false_eq_true] at ha <;>
    simp [std_common_type_pair, usual_arithmetic_conversions, integral_promotion, Ty.rank,
      Ty.is_unsigned, Ty.bits, Ty.to_unsigned, Ty.is_integer]

theorem std_common_type_from_unsigned_long_long (long_bits : Nat) (Ts : List Ty)
    (hTs : ∀ t ∈ Ts, t.is_integer = true) :
    std_common_type_from long_bits Ty.unsigned_long_long Ts = some Ty.unsigned_long_long := by
  induction Ts with
  | nil => rfl
  | cons T rest ih =>
    rw [std_common_type_from,
      (std_common_type_pair_unsigned_long_long long_bits T (hTs T (List.mem_cons_self _ _))).1]
    exact ih (fun t ht => hTs t (List.mem_cons_of_mem _ ht))

theorem std_common_type_from_mem_unsigned_long_long (long_bits : Nat) (C : Ty) (Ts : List Ty)
    (hC : C.is_integer = true) (hTs : ∀ t ∈ Ts, t.is_integer = true)
    (hmem : Ty.unsigned_long_long ∈ Ts) :
    std_common_type_from long_bits C Ts = some Ty.unsigned_long_long := by
  induction Ts generalizing C with
  | nil => cases hmem
  | cons T rest ih =>
    have hT := hTs T (List.mem_cons_self _ _)
    have hrest : ∀ t ∈ rest, t.is_integer = true := fun t ht => hTs t (List.mem_cons_of_mem _ ht)
    rcases List.mem_cons.1 hmem with heq | hin
    · subst heq
      rw [std_common_type_from, (std_common_type_pair_unsigned_long_long long_bits C hC).2]
      exact std_common_type_from_unsigned_long_long long_bits rest hrest
    · obtain ⟨D, hD, hDi⟩ := std_common_type_pair_integer long_bits C T hC hT
      rw [std_common_type_from, hD]
      exact ih D hDi hrest hin

theorem integers_std_common_type_unsigned_long_long (long_bits : Nat) (Ts : List Ty)
    (hTs : ∀ t ∈ Ts, t.is_integer = true) (hmem : Ty.unsigned_long_long ∈ Ts) :
    (TypeEnv.integers long_bits).std_common_type Ts = some Ty.unsigned_long_long := by
  cases Ts with
  | nil => cases hmem
  | cons T rest =>
    have hT := hTs T (List.mem_cons_self _ _)
    have hrest : ∀ t ∈ rest, t.is_integer = true := fun t ht => hTs t (List.mem_cons_of_mem _ ht)
    show std_common_type_from long_bits T rest = some Ty.unsigned_long_long
    rcases List.mem_cons.1 hmem with heq | hin
    · rw [← heq]
      exact std_common_type_from_unsigned_long_long long_bits rest hrest
    · exact std_common_type_from_mem_unsigned_long_long long_bits T rest hT hrest hin

theorem is_integer_ne_void (t : Ty) (ht : t.is_integer = true) : t ≠ Ty.void := by
  intro h
  rw [h] at ht
  cases ht

/-- C14. For arms whose results are plain values of integer types, `unsigned long
long` among them, the result type of the match call is `unsigned long long`, whatever
the width of `long`; and when the winning arm holds the value `n` with
`0 ≤ n < 2 ^ 64`, the call returns an optional holding `n`. -/
theorem integer_arms_unify_to_unsigned_long_long {σ : Type} (long_bits : Nat)
    (h : match_helper Value) (pre : List (matcher σ Value Value)) (m : matcher σ Value Value)
    (post : List (matcher σ Value Value)) (st st1 : σ) (c : Checked σ) (t : Ty) (n : Int)
    (harity : ∀ a ∈ pre ++ m :: post, a.capture_count = h.expressions_.length)
    (hplain : ∀ a ∈ pre ++ m :: post,
      ∃ u v, a.result_ = ResultExpr.plain u v ∧ u.is_integer = true)
    (hull : ∃ a ∈ pre ++ m :: post, ∃ v, a.result_ = ResultExpr.plain Ty.unsigned_long_long v)
    (hpre : rejects_all h.expressions_ pre st = some st1)
    (hm : m.check h.expressions_ st1 = some c) (hok : c.ok = true)
    (hwin : m.result_ = ResultExpr.plain t (Value.int n)) (h0 : 0 ≤ n) (hn : n < 2 ^ 64) :
    match_helper.ReturnType (TypeEnv.integers long_bits) h (pre ++ m :: post)
      = Ty.unsigned_long_long ∧
    ∃ out, match_helper.call (TypeEnv.integers long_bits) h (pre ++ m :: post) st = some out ∧
      out.returned = Returned.optional (some (Value.int n)) := by
  have htype : ∀ a ∈ pre ++ m :: post, ∀ u v, a.result_ = ResultExpr.plain u v →
      (test_expressions a h.expressions_).type = u := by
    intro a _ u v hr
    simp [test_expressions, matcher.get, hr, ResultExpr.plain, Got.type]
  have hint : ∀ x ∈ (pre ++ m :: post).map (fun a => (test_expressions a h.expressions_).type),
      x.is_integer = true := by
    intro x hx
    obtain ⟨a, ha, rfl⟩ := List.mem_map.1 hx
    obtain ⟨u, v, hr, hu⟩ := hplain a ha
    rw [htype a ha u v hr]
    exact hu
  have hmem : Ty.unsigned_long_long ∈
      (pre ++ m :: post).map (fun a => (test_expressions a h.expressions_).type) := by
    obtain ⟨a, ha, v, hr⟩ := hull
    exact List.mem_map.2 ⟨a, ha, htype a ha _ v hr⟩
  have hRT : match_helper.ReturnType (TypeEnv.integers long_bits) h (pre ++ m :: post)
      = Ty.unsigned_long_long := by
    unfold match_helper.ReturnType non_void_common_type_t
    rw [non_void_common_type_of_no_void _ (fun x hx => is_integer_ne_void x (hint x hx))]
    have hc := integers_std_common_type_unsigned_long_long long_bits
      ((pre ++ m :: post).map (fun a => (test_expressions a h.expressions_).type)).reverse
      (fun x hx => hint x (List.mem_reverse.1 hx)) (List.mem_reverse.2 hmem)
    cases hl : ((pre ++ m :: post).map
        (fun a => (test_expressions a h.expressions_).type)).reverse with
    | nil => rw [hl] at hc; cases hc
    | cons T rest =>
      rw [hl] at hc
      simp only [common_type, common_type_or, hc]
  refine ⟨hRT, ?_⟩
  obtain ⟨tr, -, hcall⟩ := match_helper.call_first_match (TypeEnv.integers long_bits) h pre m
    post st st1 c harity hpre hm hok
  refine ⟨_, hcall, ?_⟩
  have hmem_m : m ∈ pre ++ m :: post := by simp
  obtain ⟨u, v, hr, hu⟩ := hplain m hmem_m
  have htu : t = u := by
    have := congrArg ResultExpr.type (hwin.symm.trans hr)
    simpa [ResultExpr.plain] using this
  subst htu
  have hgl : m.get Qualifier.lvalue h.expressions_ = Got.stored t (Value.int n) := by
    simp [matcher.get, hwin, ResultExpr.plain]
  have hgr : m.get Qualifier.rvalue h.expressions_ = Got.stored t (Value.int n) := by
    simp [matcher.get, hwin, ResultExpr.plain]
  have hconv : integral_conversion true 64 n = n := by
    unfold integral_conversion
    simp only [if_true]
    exact Int.emod_eq_of_lt h0 hn
  simp only [hRT, invoke_result_expressions, hgl, hgr, Got.type, Got.run,
    is_integer_ne_void t hu, if_false]
  simp [TypeEnv.integers, Ty.is_integer, Ty.is_unsigned, Ty.bits, hconv]

/-- C14, on "Simple matcher return type": with the subject 8 the arm
`pattern(8) = (unsigned long)(8)` wins, the result type is `unsigned long long` and
the optional holds 8. -/
theorem integer_arms_unify_to_unsigned_long_long_witness :
    match_helper.ReturnType (TypeEnv.integers 64) (match_ [Value.int 8]) example_integer_arms
      = Ty.unsigned_long_long ∧
    ∃ out, match_helper.call (TypeEnv.integers 64) (match_ [Value.int 8])
        example_integer_arms 0 = some out ∧
      out.returned = Returned.optional (some (Value.int 8)) :=
  integer_arms_unify_to_unsigned_long_long 64 (match_ [Value.int 8])
    (example_integer_arms.take 7) (example_integer_arms.get ⟨7, by decide⟩)
    (example_integer_arms.drop 8) 0 0 { ok := true, state := 0, evaluated := [0] }
    Ty.unsigned_long 8
    (by
      intro a ha
      simp only [example_integer_arms, List.take, List.drop, List.get, List.cons_append,
        List.nil_append, List.mem_cons, List.mem_singleton, List.not_mem_nil, or_false] at ha
      rcases ha with rfl | rfl | rfl | rfl | rfl | rfl | rfl | rfl | rfl | rfl | rfl <;> rfl)
    (by
      intro a ha
      simp only [example_integer_arms, List.take, List.drop, List.get, List.cons_append,
        List.nil_append, List.mem_cons, List.mem_singleton, List.not_mem_nil, or_false] at ha
      rcases ha with rfl | rfl | rfl | rfl | rfl | rfl | rfl | rfl | rfl | rfl | rfl <;>
        exact ⟨_, _, rfl, rfl⟩)
    ⟨(pattern [Term.literal (Value.int 10)]).assign
        (ResultExpr.plain Ty.unsigned_long_long (Value.int 10)),
      by simp [example_integer_arms], _, rfl⟩
    rfl rfl rfl rfl (by decide) (by decide)

/-! ## The pattern library -/

theorem evaluate_match_literal {σ : Type} (c s : Value) (st : σ) :
    evaluate_match (Term.literal c) s st = (decide (c = s), st) := by
  cases c <;> cases s <;>
    simp [evaluate_match, Term.literal, StringLike.string_view, beq_eq_decide]

theorem evaluate_match_predicate {σ S R : Type} [StringLike S] (p : predicate σ S R)
    (to_bool : R → Bool) (s : S) (st : σ) :
    evaluate_match (p.term to_bool) s st = (to_bool (p.func_ s st).1, (p.func_ s st).2) := rfl

theorem in_.fold_read_only {σ S : Type} [StringLike S] (values : List (Term σ S)) (s : S)
    (st : σ) (hread : ∀ x ∈ values, (evaluate_match x s st).2 = st) :
    in_.fold values s st = (values.any (fun x => (evaluate_match x s st).1), st) := by
  induction values with
  | nil => rfl
  | cons x xs ih =>
    have hx := hread x (List.mem_cons_self _ _)
    have hxs := ih (fun y hy => hread y (List.mem_cons_of_mem _ hy))
    by_cases hb : (evaluate_match x s st).1 = true
    · simp [in_.fold, hb, hx]
    · simp [in_.fold, hb, hx, hxs]

theorem in_.fold_literals {σ : Type} (cs : List Value) (s : Value) (st : σ) :
    in_.fold (cs.map Term.literal) s st = (decide (s ∈ cs), st) := by
  rw [in_.fold_read_only]
  · congr 1
    induction cs with
    | nil => simp
    | cons c rest ih =>
      simp only [List.map_cons, List.any_cons, evaluate_match_literal, ih, List.mem_cons]
      by_cases hc : c = s
      · simp [hc]
      · have hsc : ¬ s = c := fun e => hc e.symm
        simp [hc, hsc]
  · intro x hx
    obtain ⟨c, -, rfl⟩ := List.mem_map.1 hx
    rw [evaluate_match_literal]

/-- C15. For integers `lo < hi`, `range(lo, hi)` is constructed, in debug and in
release builds, and as a pattern term it matches the integer subject `v` exactly when
`lo ≤ v` and `v ≤ hi`. -/
theorem range_matches_iff {σ : Type} (ndebug : Bool) (lo hi v : Int) (st : σ) (hlt : lo < hi) :
    ∃ p : predicate σ Int Bool, range ndebug lo hi = some p ∧
      evaluate_match (p.term id) v st = (decide (lo ≤ v ∧ v ≤ hi), st) := by
  refine ⟨{ func_ := fun value_to_test st =>
      (decide (value_to_test ≥ lo) && decide (value_to_test ≤ hi), st) }, ?_, ?_⟩
  · simp [range, expect, hlt]
  · rw [evaluate_match_predicate]
    simp [ge_iff_le, Bool.decide_and]

/-- C15, on `range(1, 124)` and the subject 12. -/
theorem range_matches_iff_witness :
    ∃ p : predicate Nat Int Bool, range false 1 124 = some p ∧
      evaluate_match (p.term id) 12 0 = (decide ((1 : Int) ≤ 12 ∧ (12 : Int) ≤ 124), 0) :=
  range_matches_iff false 1 124 12 0 (by decide)

/-- C16. In a debug build, constructing `range(lo, hi)` trips the assertion exactly
when `hi ≤ lo`, the case `lo = hi` included; with `NDEBUG` it never does. -/
theorem range_precondition_is_strict (σ : Type) (lo hi : Int) :
    ((range false lo hi : Option (predicate σ Int Bool)) = none ↔ hi ≤ lo) ∧
    (range true lo hi : Option (predicate σ Int Bool)).isSome = true := by
  constructor
  · by_cases hlt : lo < hi
    · have hnot : ¬ hi ≤ lo := not_le.2 hlt
      simp [range, expect, assert_, hlt, hnot]
    · have hle : hi ≤ lo := not_lt.1 hlt
      simp [range, expect, assert_, hlt, hle]
  · by_cases hlt : lo < hi <;> simp [range, expect, assert_, hlt]

/-- C16, on the single point `range(5, 5)`, which trips the assertion, and on
`range(5, 6)`, which does not. -/
theorem range_precondition_is_strict_witness :
    (range false 5 5 : Option (predicate Nat Int Bool)) = none ∧
    ¬ (range false 5 6 : Option (predicate Nat Int Bool)) = none :=
  ⟨(range_precondition_is_strict Nat 5 5).1.2 (by decide),
    fun hn => absurd ((range_precondition_is_strict Nat 5 6).1.1 hn) (by decide)⟩

/-- C17. `in(v1, ..., vn)` matches the subject `s` exactly when `evaluate_match(vi, s)`
holds for some `i` (the `vi` being terms whose evaluation leaves the state unchanged).
For plain values it matches exactly when `s` is one of them, so that it does not match
once the only value equal to `s` is removed. -/
theorem in_matches_iff {σ S : Type} [StringLike S] (values : List (Term σ S)) (s : S) (st : σ)
    (hread : ∀ x ∈ values, (evaluate_match x s st).2 = st) :
    evaluate_match ((in_ values).term id) s st
      = (values.any (fun x => (evaluate_match x s st).1), st) ∧
    (∀ (cs : List Value) (c : Value),
      evaluate_match ((in_ (cs.map Term.literal)).term id) c st = (decide (c ∈ cs), st)) ∧
    (∀ (cs : List Value) (c : Value), cs.count c = 1 →
      evaluate_match ((in_ ((cs.erase c).map Term.literal)).term id) c st = (false, st)) := by
  refine ⟨?_, ?_, ?_⟩
  · rw [evaluate_match_predicate]
    show ((in_.fold values s st).1, (in_.fold values s st).2) = _
    rw [in_.fold_read_only values s st hread]
  · intro cs c
    rw [evaluate_match_predicate]
    show ((in_.fold (cs.map Term.literal) c st).1, (in_.fold (cs.map Term.literal) c st).2) = _
    rw [in_.fold_literals]
  · intro cs c hcount
    rw [evaluate_match_predicate]
    show ((in_.fold ((cs.erase c).map Term.literal) c st).1,
      (in_.fold ((cs.erase c).map Term.literal) c st).2) = _
    rw [in_.fold_literals]
    have hnot : c ∉ cs.erase c := by
      rw [← List.count_eq_zero, List.count_erase_self, hcount]
    simp [hnot]

/-- C17, on `in(1, 2, 3, 4, 5, 6, 7, 10, 12)` and the subject 4. -/
theorem in_matches_iff_witness :
    evaluate_match
        ((in_ ([1, 2, 3, 4, 5, 6, 7, 10, 12].map
          (fun n => (Term.literal (Value.int n) : Term Nat Value)))).term id) (Value.int 4) 0
      = (([1, 2, 3, 4, 5, 6, 7, 10, 12].map
          (fun n => (Term.literal (Value.int n) : Term Nat Value))).any
            (fun x => (evaluate_match x (Value.int 4) 0).1), 0) :=
  (in_matches_iff _ (Value.int 4) 0
    (by
      intro x hx
      obtain ⟨n, -, rfl⟩ := List.mem_map.1 hx
      rw [evaluate_match_literal])).1

/-- C18. On an optional-like or pointer-like subject `o`, `some()` matches exactly
when `o` holds a value and `none` exactly when it does not, so exactly one of the two
matches. -/
theorem some_and_none_are_complementary {σ T : Type} (o : Option T) (st : σ) :
    evaluate_match ((some_ : predicate σ (Option T) Bool).term id) o st = (o.isSome, st) ∧
    evaluate_match ((none_ : predicate σ (Option T) Bool).term id) o st = (o.isNone, st) ∧
    (evaluate_match ((some_ : predicate σ (Option T) Bool).term id) o st).1
      = !(evaluate_match ((none_ : predicate σ (Option T) Bool).term id) o st).1 := by
  cases o <;> refine ⟨rfl, rfl, rfl⟩

/-- C19. `some(v)` matches an optional-like or pointer-like subject exactly when the
subject holds a value and that value matches `v`; on an empty subject it is false, and
nothing is evaluated (the state is unchanged). -/
theorem some_value_matches_iff {σ T : Type} [StringLike T] (value : Term σ T) (st : σ) :
    (∀ x : T, evaluate_match ((some_value value).term id) (some x) st
      = evaluate_match value x st) ∧
    evaluate_match ((some_value value).term id) (none : Option T) st = (false, st) := by
  refine ⟨fun x => ?_, ?_⟩
  · rw [evaluate_match_predicate]
    simp [some_value]
  · rw [evaluate_match_predicate]
    simp [some_value]

/-- C20. `valued(v)`, for `v` of type `T`, matches a variant subject that holds the
alternative `T` exactly when the value held matches `v`, and it is false on a subject
that holds another alternative; for a plain value `v` it matches exactly when the
subject holds the alternative `T` with a value equal to `v`. -/
theorem valued_matches_iff {σ V : Type} [StringLike V] (T : Ty) (value : Term σ V)
    (u : variant V) (st : σ) :
    (holds_alternative T u = true →
      evaluate_match ((valued T value).term id) u st = evaluate_match value u.value st) ∧
    (holds_alternative T u = false →
      evaluate_match ((valued T value).term id) u st = (false, st)) ∧
    (∀ (v : Value) (w : variant Value),
      (evaluate_match ((valued T (Term.literal v)).term id) w st).1 = true ↔
        holds_alternative T w = true ∧ v = w.value) := by
  refine ⟨?_, ?_, ?_⟩
  · intro hh
    rw [evaluate_match_predicate]
    simp [valued, hh, std_get]
  · intro hh
    rw [evaluate_match_predicate]
    simp [valued, hh]
  · intro v w
    rw [evaluate_match_predicate]
    by_cases hh : holds_alternative T w = true
    · simp [valued, hh, std_get, evaluate_match_literal]
    · simp [valued, hh]

/-- C20, on the subject `std::variant<int, std::string> x = 11223344`:
`valued(11223344)` matches, `valued("11223344"s)` does not. -/
theorem valued_matches_iff_witness :
    evaluate_match ((valued Ty.int (Term.literal (Value.int 11223344))).term id)
        ({ alternatives := [Ty.int, Ty.string], index := 0, value := Value.int 11223344 } :
          variant Value) (0 : Nat)
      = evaluate_match (Term.literal (Value.int 11223344)) (Value.int 11223344) (0 : Nat) ∧
    evaluate_match ((valued Ty.string (Term.literal (Value.string "11223344"))).term id)
        ({ alternatives := [Ty.int, Ty.string], index := 0, value := Value.int 11223344 } :
          variant Value) (0 : Nat)
      = (false, 0) :=
  ⟨(valued_matches_iff Ty.int (Term.literal (Value.int 11223344))
      { alternatives := [Ty.int, Ty.string], index := 0, value := Value.int 11223344 } 0).1 rfl,
    (valued_matches_iff Ty.string (Term.literal (Value.string "11223344"))
      { alternatives := [Ty.int, Ty.string], index := 0, value := Value.int 11223344 } 0).2.1
      rfl⟩

/-! ## Variants, destructuring and strings -/

theorem is_variant_holding_iff (T : Ty) (Ts : List Ty) :
    is_variant_holding T Ts = decide (T ∈ Ts) := by
  have hgen : ∀ (l : List Ty) (b : Bool),
      l.foldl (fun acc U => acc || decide (T = U)) b = (b || decide (T ∈ l)) := by
    intro l
    induction l with
    | nil => intro b; simp
    | cons U rest ih =>
      intro b
      simp only [List.foldl_cons, ih, List.mem_cons, Bool.decide_or, Bool.or_assoc]
  unfold is_variant_holding
  rw [hgen]
  simp

/-- C21, as stated, fails: on a `std::variant<int, std::string>` that holds the
string "11223344", `typed<int>` matches although the alternative held is not `int`. -/
theorem typed_ignores_the_active_alternative :
    holds_alternative Ty.int
        ({ alternatives := [Ty.int, Ty.string], index := 1, value := Value.string "11223344" } :
          variant Value) = false ∧
    evaluate_match ((typed Ty.int : predicate Nat (variant Value) Bool).term id)
        { alternatives := [Ty.int, Ty.string], index := 1, value := Value.string "11223344" } 0
      = (true, 0) := by
  refine ⟨rfl, rfl⟩

/-- C21, amended. For every variant subject `u` and type `T`, `typed<T>` matches `u`
exactly when `T` is one of the alternatives declared for the type of `u`; so it
matches when the alternative held is `T`, and the value of `u` is not read. -/
theorem typed_matches_iff_declared {σ V : Type} (T : Ty) (u : variant V) (st : σ) :
    evaluate_match ((typed T : predicate σ (variant V) Bool).term id) u st
      = (decide (T ∈ u.alternatives), st) ∧
    (holds_alternative T u = true →
      evaluate_match ((typed T : predicate σ (variant V) Bool).term id) u st = (true, st)) := by
  have hev : evaluate_match ((typed T : predicate σ (variant V) Bool).term id) u st
      = (decide (T ∈ u.alternatives), st) := by
    rw [evaluate_match_predicate]
    simp [typed, is_variant_holding_iff]
  refine ⟨hev, fun hh => ?_⟩
  rw [hev]
  have hmem : T ∈ u.alternatives := by
    unfold holds_alternative at hh
    exact List.get?_mem (of_decide_eq_true hh)
  simp [hmem]

/-- C21 amended, on `std::variant<int, std::string> x = 11223344` and `typed<int>`. -/
theorem typed_matches_iff_declared_witness :
    evaluate_match ((typed Ty.int : predicate Nat (variant Value) Bool).term id)
        { alternatives := [Ty.int, Ty.string], index := 0, value := Value.int 11223344 } 0
      = (true, 0) :=
  (typed_matches_iff_declared Ty.int
    ({ alternatives := [Ty.int, Ty.string], index := 0, value := Value.int 11223344 } :
      variant Value) 0).2 rfl

/-- C23. A string-like pattern matches a string-like subject, whatever the
representation of each and whatever `==` does between them, exactly when the two have
the same characters. -/
theorem strings_match_by_content {σ : Type} (a b : string_like)
    (equals : string_like → σ → Bool × σ) (st : σ) :
    evaluate_match (a.term equals) b st = (decide (a.content = b.content), st) := by
  simp [evaluate_match, string_like.term, StringLike.string_view, beq_eq_decide]

/-! ## Predicate combinators -/

/-- C24. For each relational operator `op`, integer constant `c` and integer subject
`s`, the pattern term `_x op c` matches `s` exactly when `s op c`, and the mirrored
term `c op _x` exactly when `c op s`; the state is left as it is. -/
theorem variable_comparison_matches_iff {σ : Type} (op : RelOp) (c s : Int) (st : σ) :
    evaluate_match ((predicate.relational op _x c).term id) s st = (op.holds s c, st) ∧
    evaluate_match ((predicate.relational_mirrored op c _x).term id) s st
      = (op.holds c s, st) ∧
    (RelOp.eq.holds s c = decide (s = c) ∧ RelOp.ne.holds s c = decide (s ≠ c) ∧
      RelOp.lt.holds s c = decide (s < c) ∧ RelOp.le.holds s c = decide (s ≤ c) ∧
      RelOp.gt.holds s c = decide (c < s) ∧ RelOp.ge.holds s c = decide (c ≤ s)) := by
  refine ⟨rfl, rfl, rfl, rfl, rfl, rfl, ?_, ?_⟩
  · simp [RelOp.holds]
  · simp [RelOp.holds]

/-- C25. The logical combinators act pointwise: `(!p)(s)` is the negation of `p(s)`,
`(p && q)(s)` the conjunction and `(p || q)(s)` the disjunction of `p(s)` and `q(s)`
(`q` being called after `p`, when it is called); and `!in(v1, ..., vn)` matches `s`
exactly when `in(v1, ..., vn)` does not. -/
theorem logical_combinators_are_pointwise {σ S : Type} [StringLike S]
    (p q : predicate σ S Bool) (values : List (Term σ S)) (s : S) (st : σ) :
    (p.operator_not.call s st).1 = !(p.call s st).1 ∧
    ((p.operator_and q).call s st).1 = ((p.call s st).1 && (q.call s (p.call s st).2).1) ∧
    ((p.operator_or q).call s st).1 = ((p.call s st).1 || (q.call s (p.call s st).2).1) ∧
    (evaluate_match ((in_ values).operator_not.term id) s st).1
      = !(evaluate_match ((in_ values).term id) s st).1 := by
  refine ⟨rfl, ?_, ?_, rfl⟩
  · show (if (p.call s st).1 then q.call s (p.call s st).2 else (false, (p.call s st).2)).1 = _
    cases (p.call s st).1 <;> simp
  · show (if (p.call s st).1 then (true, (p.call s st).2) else q.call s (p.call s st).2).1 = _
    cases (p.call s st).1 <;> simp

/-- C26, as the code has it: `p << c` computes `p(s) >> c` and `c >> p` computes
`c << p(s)`; on `_x << 1` with the subject 4 the result is 2, not 8, and on `8 >> _x`
with the subject 1 it is 16, not 4. The four other shift forms apply their own
operator. -/
theorem shift_combinators_swap_operators :
    (predicate.shift_left_constant (_x : predicate Nat Int Int) 1).call 4 0 = (2, 0) ∧
    (predicate.shift_right_mirrored 8 (_x : predicate Nat Int Int)).call 1 0 = (16, 0) ∧
    (∀ (p q : predicate Nat Int Int) (c s : Int) (st : Nat),
      ((predicate.shift_left_constant p c).call s st).1 = shift_right (p.call s st).1 c ∧
      ((predicate.shift_right_mirrored c p).call s st).1 = shift_left c (p.call s st).1 ∧
      ((predicate.shift_left_mirrored c p).call s st).1 = shift_left c (p.call s st).1 ∧
      ((predicate.shift_right_constant p c).call s st).1 = shift_right (p.call s st).1 c ∧
      ((predicate.shift_left_both p q).call s st).1
        = shift_left (p.call s st).1 (q.call s (p.call s st).2).1 ∧
      ((predicate.shift_right_both p q).call s st).1
        = shift_right (p.call s st).1 (q.call s (p.call s st).2).1) := by
  refine ⟨by decide, by decide, ?_⟩
  intro p q c s st
  exact ⟨rfl, rfl, rfl, rfl, rfl, rfl⟩

/-- C27, as stated, fails: the bare `_x` does not match the integer subject 0. -/
theorem bare_variable_rejects_zero :
    evaluate_match ((_x : predicate Nat Int Int).term int_to_bool) 0 0 = (false, 0) := by
  rfl

/-- C27, amended. Each of the bare variable predicates `_u`, `_v`, `_w`, `_x`, `_y`,
`_z`, used alone as a pattern term, matches an integer subject exactly when the
subject is not 0. -/
theorem bare_variable_matches_iff_nonzero {σ : Type} (s : Int) (st : σ) :
    evaluate_match ((_u : predicate σ Int Int).term int_to_bool) s st = (decide (s ≠ 0), st) ∧
    evaluate_match ((_v : predicate σ Int Int).term int_to_bool) s st = (decide (s ≠ 0), st) ∧
    evaluate_match ((_w : predicate σ Int Int).term int_to_bool) s st = (decide (s ≠ 0), st) ∧
    evaluate_match ((_x : predicate σ Int Int).term int_to_bool) s st = (decide (s ≠ 0), st) ∧
    evaluate_match ((_y : predicate σ Int Int).term int_to_bool) s st = (decide (s ≠ 0), st) ∧
    evaluate_match ((_z : predicate σ Int Int).term int_to_bool) s st = (decide (s ≠ 0), st) :=
  ⟨rfl, rfl, rfl, rfl, rfl, rfl⟩

/-- C28, as stated, fails: the pattern term `_ == 5` does not match the subject 5,
which the bare `_` matches. -/
theorem compared_wildcard_rejects_its_constant :
    evaluate_match (wildcard.compared RelOp.eq Side.left 5 : Term Nat Int) 5 0 = (false, 0) ∧
    evaluate_match (wildcard.underscore Nat Int) 5 0 = (true, 0) := by
  refine ⟨by decide, rfl⟩

/-- C28, amended. A pattern term built by comparing the wildcard with a constant is
not a wildcard but the boolean that the comparison returns; where that boolean is
`true`, as the operators of the wildcard are meant to return, the term is compared
with the subject as 1 is, and it matches an integer subject `s` exactly when
`s = 1`. -/
theorem compared_wildcard_matches_iff {σ : Type} (op : RelOp) (side : Side) (c s : Int)
    (st : σ) (h : wildcard.compare op side c = true) :
    evaluate_match (wildcard.compared op side c : Term σ Int) s st
      = (decide (s = 1), st) := by
  simp [evaluate_match, wildcard.compared, Term.boolean, h, StringLike.string_view, eq_comm]

/-- C28 amended, on `_ == 5`: it matches the subject 1 and not the subject 5. -/
theorem compared_wildcard_matches_iff_witness :
    evaluate_match (wildcard.compared RelOp.eq Side.left 5 : Term Nat Int) 1 0
      = (decide ((1 : Int) = 1), 0) ∧
    evaluate_match (wildcard.compared RelOp.eq Side.left 5 : Term Nat Int) 5 0
      = (decide ((5 : Int) = 1), 0) :=
  ⟨compared_wildcard_matches_iff RelOp.eq Side.left 5 1 0 rfl,
    compared_wildcard_matches_iff RelOp.eq Side.left 5 5 0 rfl⟩

/-! ## Sequences -/

/-- C29. For a sequence subject `c` and `n ≥ 0`, each of the pattern terms `sized(n)`,
`size(_x) == n`, `ssized(n)` and `ssize(_x) == n` matches `c` exactly when the length
of `c` is `n`. -/
theorem size_patterns_are_equivalent {σ E : Type} (c : List E) (n : Int) (st : σ)
    (hn : 0 ≤ n) :
    evaluate_match ((sized n.toNat : predicate σ (List E) Bool).term id) c st
      = (decide ((c.length : Int) = n), st) ∧
    evaluate_match ((predicate.relational RelOp.eq (size _x) n).term id) c st
      = (decide ((c.length : Int) = n), st) ∧
    evaluate_match ((ssized n : predicate σ (List E) Bool).term id) c st
      = (decide ((c.length : Int) = n), st) ∧
    evaluate_match ((predicate.relational RelOp.eq (ssize _x) n).term id) c st
      = (decide ((c.length : Int) = n), st) := by
  refine ⟨?_, rfl, rfl, rfl⟩
  rw [evaluate_match_predicate]
  simp only [sized, id, Prod.mk.injEq, and_true, decide_eq_decide]
  omega

/-- C29, on the vector `{ 1, 2, 3, 4, 5, 6, 7, 8, 9, 0 }` and `n = 10`. -/
theorem size_patterns_are_equivalent_witness :
    evaluate_match ((sized (10 : Int).toNat : predicate Nat (List Int) Bool).term id)
        [1, 2, 3, 4, 5, 6, 7, 8, 9, 0] 0
      = (decide ((([1, 2, 3, 4, 5, 6, 7, 8, 9, 0] : List Int).length : Int) = 10), 0) ∧
    evaluate_match ((predicate.relational RelOp.eq (size _x) 10).term id)
        ([1, 2, 3, 4, 5, 6, 7, 8, 9, 0] : List Int) (0 : Nat)
      = (decide ((([1, 2, 3, 4, 5, 6, 7, 8, 9, 0] : List Int).length : Int) = 10), 0) ∧
    evaluate_match ((ssized 10 : predicate Nat (List Int) Bool).term id)
        [1, 2, 3, 4, 5, 6, 7, 8, 9, 0] 0
      = (decide ((([1, 2, 3, 4, 5, 6, 7, 8, 9, 0] : List Int).length : Int) = 10), 0) ∧
    evaluate_match ((predicate.relational RelOp.eq (ssize _x) 10).term id)
        ([1, 2, 3, 4, 5, 6, 7, 8, 9, 0] : List Int) (0 : Nat)
      = (decide ((([1, 2, 3, 4, 5, 6, 7, 8, 9, 0] : List Int).length : Int) = 10), 0) :=
  size_patterns_are_equivalent [1, 2, 3, 4, 5, 6, 7, 8, 9, 0] 10 0 (by decide)

/-- C30. `find(v, proj)` evaluates on a sequence `c` to a position `k` at most the end
position, such that no element before `k` has `proj(e) == v` and the element at `k`,
if there is one, has; and the pattern term `find(v, proj) != end()` matches `c` exactly
when some element `e` of `c` has `proj(e) == v`. -/
theorem find_locates_first_match {σ E P : Type} [DecidableEq P] (v : P) (proj : E → P)
    (c : List E) (st : σ) :
    (∃ k : Nat, ((find v proj : predicate σ (List E) Int).call c st).1 = (k : Int) ∧
      k ≤ c.length ∧
      (∀ i e, i < k → c.get? i = some e → proj e ≠ v) ∧
      (∀ e, c.get? k = some e → proj e = v) ∧
      (k = c.length ↔ ∀ e ∈ c, proj e ≠ v)) ∧
    evaluate_match ((predicate.relational_both RelOp.ne (find v proj) end_).term id) c st
      = (decide (∃ e ∈ c, proj e = v), st) := by
  constructor
  · refine ⟨c.findIdx (fun e => decide (proj e = v)), rfl, List.findIdx_le_length _, ?_, ?_, ?_⟩
    · intro i e hi he hpe
      have hlt : i < c.length := Nat.lt_of_lt_of_le hi (List.findIdx_le_length _)
      have hfalse := List.not_of_lt_findIdx hi
      rw [List.get?_eq_getElem?, List.getElem?_eq_getElem hlt] at he
      cases he
      simp [hpe] at hfalse
    · intro e he
      rw [List.get?_eq_getElem?] at he
      have := List.findIdx_of_getElem?_eq_some he
      simpa using this
    · rw [List.findIdx_eq_length]
      simp
  · rw [evaluate_match_predicate]
    simp only [predicate.relational_both, predicate.call, find, end_, RelOp.holds, id,
      Prod.mk.injEq, and_true, decide_eq_decide, ne_eq, Nat.cast_inj]
    rw [List.findIdx_eq_length]
    simp

/-- C30, on the vector `{ 1, 2, 3, 4, 5, 6, 7, 8, 9, 0 }`: `find(0) != end()` matches
and `find(10) != end()` does not, and with the projection `x * x`,
`find(4, proj) != end()` matches. -/
theorem find_locates_first_match_witness :
    evaluate_match ((predicate.relational_both RelOp.ne (find (0 : Int) id) end_).term id)
        ([1, 2, 3, 4, 5, 6, 7, 8, 9, 0] : List Int) (0 : Nat)
      = (decide (∃ e ∈ ([1, 2, 3, 4, 5, 6, 7, 8, 9, 0] : List Int), id e = 0), 0) ∧
    evaluate_match ((predicate.relational_both RelOp.ne (find (10 : Int) id) end_).term id)
        ([1, 2, 3, 4, 5, 6, 7, 8, 9, 0] : List Int) (0 : Nat)
      = (decide (∃ e ∈ ([1, 2, 3, 4, 5, 6, 7, 8, 9, 0] : List Int), id e = 10), 0) ∧
    evaluate_match
        ((predicate.relational_both RelOp.ne (find (4 : Int) (fun x => x * x)) end_).term id)
        ([1, 2, 3, 4, 5, 6, 7, 8, 9, 0] : List Int) (0 : Nat)
      = (decide (∃ e ∈ ([1, 2, 3, 4, 5, 6, 7, 8, 9, 0] : List Int), e * e = 4), 0) :=
  ⟨(find_locates_first_match (0 : Int) id [1, 2, 3, 4, 5, 6, 7, 8, 9, 0] 0).2,
    (find_locates_first_match (10 : Int) id [1, 2, 3, 4, 5, 6, 7, 8, 9, 0] 0).2,
    (find_locates_first_match (4 : Int) (fun x => x * x) [1, 2, 3, 4, 5, 6, 7, 8, 9, 0] 0).2⟩


/-! ## Positions in a sequence -/

/-- C31. On a sequence of length `L` and for `0 ≤ k ≤ L`, the positions
`next(begin(), k)` and `prev(end(), k)` are positions of the sequence, and the pattern
`next(begin(), k) == prev(end(), k)` matches exactly when `L = 2 * k`, the state being
left as it is. -/
theorem next_prev_match_iff_twice {σ E : Type} (xs : List E) (k : Int) (st : σ)
    (h0 : 0 ≤ k) (hk : k ≤ (xs.length : Int)) :
    (0 ≤ ((next begin_ k).call xs st).1 ∧ ((next begin_ k).call xs st).1 ≤ (xs.length : Int)) ∧
    (0 ≤ ((prev end_ k).call xs st).1 ∧ ((prev end_ k).call xs st).1 ≤ (xs.length : Int)) ∧
    evaluate_match
        ((predicate.relational_both RelOp.eq (next begin_ k) (prev end_ k)).term id) xs st
      = (decide ((xs.length : Int) = 2 * k), st) := by
  have hiff : ((0 : Int) + k = (xs.length : Int) - k) ↔ ((xs.length : Int) = 2 * k) := by
    constructor <;> intro h <;> omega
  refine ⟨?_, ?_, ?_⟩
  · simp only [predicate.call, next, begin_]
    omega
  · simp only [predicate.call, prev, end_]
    omega
  · rw [evaluate_match_predicate]
    simp only [predicate.relational_both, predicate.call, next, prev, begin_, end_, RelOp.holds,
      id, decide_eq_decide.2 hiff]

/-- C31, on the sequence `{1, 2}`: with `k = 2` the pattern does not match, with the
default `k = 1` it does. -/
theorem next_prev_match_iff_twice_witness :
    evaluate_match
        ((predicate.relational_both RelOp.eq (next begin_ 2) (prev end_ 2)).term id)
        [(1 : Int), 2] (0 : Nat) = (false, 0) ∧
    evaluate_match
        ((predicate.relational_both RelOp.eq (next begin_ 1) (prev end_ 1)).term id)
        [(1 : Int), 2] (0 : Nat) = (true, 0) :=
  ⟨(next_prev_match_iff_twice [(1 : Int), 2] 2 (0 : Nat) (by decide) (by decide)).2.2,
    (next_prev_match_iff_twice [(1 : Int), 2] 1 (0 : Nat) (by decide) (by decide)).2.2⟩

/-! ## The order of evaluation inside one check -/

theorem tuple_unpacker.apply_evaluated {σ A B : Type} (func : A → B → σ → Bool × σ) (N : Nat)
    (t1 : List A) (t2 : List B) (st : σ) (h1 : N ≤ t1.length) (h2 : N ≤ t2.length)
    (hread : ∀ i x y, i < N → t1.get? i = some x → t2.get? i = some y → (func x y st).2 = st) :
    ∃ c, tuple_unpacker.apply func N t1 t2 st = some c ∧
      c.evaluated.head? = (if N = 0 then none else some (N - 1)) ∧
      c.evaluated.Pairwise (fun a b => b < a) ∧
      ∀ i, i ∈ c.evaluated ↔
        i < N ∧ ∀ j x y, i < j → j < N → t1.get? j = some x → t2.get? j = some y →
          (func x y st).1 = true := by
  induction N with
  | zero =>
    refine ⟨_, rfl, rfl, List.Pairwise.nil, ?_⟩
    intro i
    simp
  | succ n ih =>
    obtain ⟨x, hx⟩ : ∃ x, t1.get? n = some x := ⟨t1.get ⟨n, h1⟩, List.get?_eq_get h1⟩
    obtain ⟨y, hy⟩ : ∃ y, t2.get? n = some y := ⟨t2.get ⟨n, h2⟩, List.get?_eq_get h2⟩
    have hst : (func x y st).2 = st := hread n x y (Nat.lt_succ_self n) hx hy
    obtain ⟨c, hc, _, hcp, hce⟩ := ih (Nat.le_of_succ_le h1) (Nat.le_of_succ_le h2)
      (fun i a b hi => hread i a b (Nat.lt_succ_of_lt hi))
    simp only [tuple_unpacker.apply, hx, hy, hst]
    by_cases hb : (func x y st).1 = true
    · refine ⟨{ c with evaluated := n :: c.evaluated }, by simp [hb, hc], by simp, ?_, ?_⟩
      · exact List.Pairwise.cons (fun a ha => ((hce a).1 ha).1) hcp
      · intro i
        show i ∈ n :: c.evaluated ↔ _
        rw [List.mem_cons, hce]
        constructor
        · rintro (rfl | ⟨hi, hall⟩)
          · exact ⟨Nat.lt_succ_self _, fun j a b hij hj => by omega⟩
          · refine ⟨Nat.lt_succ_of_lt hi, fun j a b hij hj ha hb2 => ?_⟩
            rcases Nat.lt_succ_iff_lt_or_eq.1 hj with hlt | heq
            · exact hall j a b hij hlt ha hb2
            · subst heq
              rw [hx] at ha
              rw [hy] at hb2
              cases ha
              cases hb2
              exact hb
        · rintro ⟨hi, hall⟩
          rcases Nat.lt_succ_iff_lt_or_eq.1 hi with hlt | heq
          · exact Or.inr ⟨hlt, fun j a b hij hj => hall j a b hij (Nat.lt_succ_of_lt hj)⟩
          · exact Or.inl heq
    · refine ⟨{ ok := false, state := st, evaluated := [n] }, by simp [hb], by simp, ?_, ?_⟩
      · exact List.pairwise_singleton _ _
      · intro i
        show i ∈ [n] ↔ _
        rw [List.mem_singleton]
        constructor
        · rintro rfl
          exact ⟨Nat.lt_succ_self _, fun j a b hij hj => by omega⟩
        · rintro ⟨hi, hall⟩
          rcases Nat.lt_succ_iff_lt_or_eq.1 hi with hlt | heq
          · exact absurd (hall n x y hlt (Nat.lt_succ_self n) hx hy) hb
          · exact heq

/-- C32, as stated, fails: in the check of `pattern(10, counting)` against `(5, 7)`
the term at the first position does not match, and the counting predicate at the
second position has been evaluated all the same: the check is false, the predicate has
counted one call, and the positions were evaluated in the order second, first. -/
theorem check_evaluates_later_position_before_mismatch :
    (evaluate_match (Term.literal (Value.int 10)) (Value.int 5) (0 : Nat)).1 = false ∧
    (example_counting_matcher.check [Value.int 5, Value.int 7] 0).map
        (fun c => (c.ok, c.state, c.evaluated))
      = some (false, 1, [1, 0]) := by
  constructor <;> rfl

theorem tuple_unpacker.apply_mismatch {σ A B : Type} (func : A → B → σ → Bool × σ) (N : Nat)
    (t1 : List A) (t2 : List B) (i : Nat) (x : A) (y : B)
    (h1 : N ≤ t1.length) (h2 : N ≤ t2.length) (hi : i < N)
    (hx : t1.get? i = some x) (hy : t2.get? i = some y)
    (hmis : ∀ st, (func x y st).1 = false) (st : σ) :
    ∃ c, tuple_unpacker.apply func N t1 t2 st = some c ∧ c.ok = false ∧
      (∀ j ∈ c.evaluated, i ≤ j) ∧
      ∀ t1b : List A, (∀ j, i ≤ j → t1b.get? j = t1.get? j) →
        tuple_unpacker.apply func N t1b t2 st = some c := by
  induction N generalizing st with
  | zero => exact absurd hi (Nat.not_lt_zero _)
  | succ n ih =>
    obtain ⟨a, ha⟩ : ∃ a, t1.get? n = some a := ⟨t1.get ⟨n, h1⟩, List.get?_eq_get h1⟩
    obtain ⟨b, hb⟩ : ∃ b, t2.get? n = some b := ⟨t2.get ⟨n, h2⟩, List.get?_eq_get h2⟩
    rcases Nat.lt_succ_iff_lt_or_eq.1 hi with hlt | heq
    · by_cases hr : (func a b st).1 = true
      · obtain ⟨c, hc, hok, hev, hsame⟩ := ih (Nat.le_of_succ_le h1) (Nat.le_of_succ_le h2)
          hlt (func a b st).2
        refine ⟨{ c with evaluated := n :: c.evaluated }, ?_, hok, ?_, ?_⟩
        · simp only [tuple_unpacker.apply, ha, hb, hr, if_true, hc]
        · intro j hj
          rcases List.mem_cons.1 hj with rfl | hj
          · exact Nat.le_of_lt hlt
          · exact hev j hj
        · intro t1b hagree
          have hab : t1b.get? n = some a := by rw [hagree n (Nat.le_of_lt hlt), ha]
          simp only [tuple_unpacker.apply, hab, hb, hr, if_true, hsame t1b hagree]
      · refine ⟨{ ok := false, state := (func a b st).2, evaluated := [n] }, ?_, rfl, ?_, ?_⟩
        · simp only [tuple_unpacker.apply, ha, hb, hr, Bool.false_eq_true, if_false]
        · intro j hj
          rw [List.mem_singleton.1 hj]
          exact Nat.le_of_lt hlt
        · intro t1b hagree
          have hab : t1b.get? n = some a := by rw [hagree n (Nat.le_of_lt hlt), ha]
          simp only [tuple_unpacker.apply, hab, hb, hr, Bool.false_eq_true, if_false]
    · subst heq
      have hr : (func x y st).1 = false := hmis st
      refine ⟨{ ok := false, state := (func x y st).2, evaluated := [i] }, ?_, rfl, ?_, ?_⟩
      · simp only [tuple_unpacker.apply, hx, hy, hr, Bool.false_eq_true, if_false]
      · intro j hj
        rw [List.mem_singleton.1 hj]
      · intro t1b hagree
        have hab : t1b.get? i = some x := by rw [hagree i (Nat.le_refl _), hx]
        simp only [tuple_unpacker.apply, hab, hy, hr, Bool.false_eq_true, if_false]

/-- C32, amended: `check` is false as soon as a term does not match, the positions
being taken from the last to the first. For a matcher of arity `k` checked against
`k` subjects, whatever the other pattern terms do to the state: if the term at
position `i` is one that does not match its subject, the check is false, no term at an
earlier position `j < i` is evaluated, and the outcome, state included, is the same
whatever the terms at the earlier positions are. -/
theorem check_stops_at_mismatch_from_the_right {σ S V : Type} [StringLike S]
    (m : matcher σ S V) (values : List S) (st : σ) (i : Nat) (p : Term σ S) (s : S)
    (harity : m.capture_count = values.length)
    (hp : m.args_.get? i = some p) (hs : values.get? i = some s)
    (hmis : ∀ st1, (evaluate_match p s st1).1 = false) :
    ∃ c, m.check values st = some c ∧ c.ok = false ∧ (∀ j, j < i → j ∉ c.evaluated) ∧
      ∀ m2 : matcher σ S V, (∀ j, i ≤ j → m2.args_.get? j = m.args_.get? j) →
        m2.check values st = some c := by
  have hi : i < values.length := by
    by_contra hge
    rw [List.get?_eq_none.2 (Nat.le_of_not_lt hge)] at hs
    cases hs
  obtain ⟨c, hc, hok, hev, hsame⟩ := tuple_unpacker.apply_mismatch
    (fun (x : Term σ S) (y : S) => evaluate_match x y) values.length m.args_ values i p s
    (Nat.le_of_eq harity.symm) (Nat.le_refl _) hi hp hs hmis st
  refine ⟨c, hc, hok, ?_, ?_⟩
  · intro j hj hmem
    exact absurd (hev j hmem) (Nat.not_le_of_lt hj)
  · intro m2 hagree
    exact hsame m2.args_ hagree

/-- C32 amended, on `pattern(counting, 10)` checked against `(7, 5)`: the second term
does not match, and the counting predicate before it is not evaluated. -/
theorem check_stops_at_mismatch_from_the_right_witness :
    ∃ c, example_counting_first.check [Value.int 7, Value.int 5] 0 = some c ∧
      c.ok = false ∧ (∀ j, j < 1 → j ∉ c.evaluated) ∧
      ∀ m2 : matcher Nat Value Value,
        (∀ j, 1 ≤ j → m2.args_.get? j = example_counting_first.args_.get? j) →
        m2.check [Value.int 7, Value.int 5] 0 = some c :=
  check_stops_at_mismatch_from_the_right example_counting_first
    [Value.int 7, Value.int 5] 0 1 (Term.literal (Value.int 10)) (Value.int 5) rfl rfl rfl
    (fun _ => rfl)

/-- C33. The tuple unpacker, which `matcher::check` and the body of `ds` call with
`evaluate_match` as the test, goes from the last position to the first and stops at
the first test that is false. For `N` positions and tests that leave the state
unchanged: it returns; the first position it tests is the last one; the positions it
tests come in decreasing order; and position `i` is tested exactly when the test at
every position `j > i` was true. (Positions are numbered from 0 here, so position `i`
is the claim's position `i + 1`.) -/
theorem unpacker_evaluates_right_to_left {σ A B : Type} (func : A → B → σ → Bool × σ)
    (N : Nat) (t1 : List A) (t2 : List B) (st : σ) (h1 : N ≤ t1.length) (h2 : N ≤ t2.length)
    (hread : ∀ i x y, i < N → t1.get? i = some x → t2.get? i = some y → (func x y st).2 = st) :
    ∃ c, tuple_unpacker.apply func N t1 t2 st = some c ∧
      c.evaluated.head? = (if N = 0 then none else some (N - 1)) ∧
      c.evaluated.Pairwise (fun a b => b < a) ∧
      ∀ i, i < N →
        (i ∈ c.evaluated ↔ ∀ j x y, i < j → j < N → t1.get? j = some x → t2.get? j = some y →
          (func x y st).1 = true) := by
  obtain ⟨c, hc, hhead, hcp, hce⟩ := tuple_unpacker.apply_evaluated func N t1 t2 st h1 h2 hread
  refine ⟨c, hc, hhead, hcp, ?_⟩
  intro i hi
  rw [hce]
  exact ⟨fun h => h.2, fun h => ⟨hi, h⟩⟩

/-- C33, on the check of `pattern(10, _, 3)` against `(10, 2, 3)`. -/
theorem unpacker_evaluates_right_to_left_witness :
    ∃ c, ((pattern [Term.literal (Value.int 10), wildcard.underscore Nat Value,
          Term.literal (Value.int 3)]).assign (ResultExpr.plain Ty.int (Value.int 1))).check
        [Value.int 10, Value.int 2, Value.int 3] 0 = some c ∧
      c.evaluated.head? = (if 3 = 0 then none else some (3 - 1)) ∧
      c.evaluated.Pairwise (fun a b => b < a) ∧
      ∀ i, i < 3 →
        (i ∈ c.evaluated ↔ ∀ j x y, i < j → j < 3 →
          [Term.literal (Value.int 10), wildcard.underscore Nat Value,
            Term.literal (Value.int 3)].get? j = some x →
          [Value.int 10, Value.int 2, Value.int 3].get? j = some y →
          (evaluate_match x y 0).1 = true) :=
  unpacker_evaluates_right_to_left (fun (x : Term Nat Value) (y : Value) => evaluate_match x y) 3
    [Term.literal (Value.int 10), wildcard.underscore Nat Value, Term.literal (Value.int 3)]
    [Value.int 10, Value.int 2, Value.int 3] 0 (by decide) (by decide)
    (by
      intro j q t _ hq ht
      match j, hq, ht with
      | 0, hq, ht => cases hq; cases ht; rfl
      | 1, hq, ht => cases hq; cases ht; rfl
      | 2, hq, ht => cases hq; cases ht; rfl
      | (n + 3), hq, _ => cases hq)

/-! ## Facts of the type level -/

/-- C35. `typed<T>` gives the same answer on all values of one variant type: for two
variants with the same declared alternatives, whichever alternative each holds, the
pattern gives the same result, and it matches exactly when `T` is among the declared
alternatives. -/
theorem typed_answer_is_per_variant_type {σ V : Type} (T : Ty) (u u2 : variant V) (st : σ)
    (h : u.alternatives = u2.alternatives) :
    evaluate_match ((typed T).term id) u st = evaluate_match ((typed T).term id) u2 st ∧
    ((evaluate_match ((typed T).term id) u st).1 = true ↔ T ∈ u.alternatives) := by
  rw [evaluate_match_predicate, evaluate_match_predicate]
  simp only [typed, id, h, is_variant_holding_iff, decide_eq_true_eq, and_self]

/-- C35, on two values of `std::variant<int, std::string>`, one holding the `int` 1
and one holding the string "1", with `T = int`. -/
theorem typed_answer_is_per_variant_type_witness :
    evaluate_match ((typed Ty.int).term id)
        ({ alternatives := [Ty.int, Ty.string], index := 0, value := Value.int 1 } :
          variant Value) (0 : Nat)
      = evaluate_match ((typed Ty.int).term id)
        ({ alternatives := [Ty.int, Ty.string], index := 1, value := Value.string "1" } :
          variant Value) (0 : Nat) ∧
    ((evaluate_match ((typed Ty.int).term id)
        ({ alternatives := [Ty.int, Ty.string], index := 0, value := Value.int 1 } :
          variant Value) (0 : Nat)).1 = true ↔ Ty.int ∈ [Ty.int, Ty.string]) :=
  typed_answer_is_per_variant_type Ty.int _ _ 0 rfl

/-- C36. The list computed by `non_void_common_type` holds the entries of the input
that are not `void`, each as many times as it occurs, in the reverse of the order of
declaration. -/
theorem non_void_common_type_reverses_non_void (Ts : List Ty) :
    non_void_common_type Ts = (Ts.filter (fun T => decide (T ≠ Ty.void))).reverse := by
  induction Ts with
  | nil => rfl
  | cons T rest ih =>
    by_cases hT : T = Ty.void
    · simp [non_void_common_type, hT, ih]
    · simp [non_void_common_type, hT, ih, append_type]

/-! ## Destructuring against a matcher of several positions -/

/-- C39. For `k` pattern terms and `k` subjects, the check of the matcher
`pattern(p1, ..., pk)` against `(s1, ..., sk)` and the check of the matcher
`pattern(ds(p1, ..., pk))` against the one subject `std::tuple(s1, ..., sk)` give the
same boolean (and leave the same state): the body of `ds` is well formed there and is
the same unpacking. -/
theorem k_ary_matcher_agrees_with_ds {σ V : Type} (ps : List (Term σ Object))
    (ss : List Object) (r r2 : ResultExpr σ Object V) (st : σ) (h : ps.length = ss.length) :
    ∃ c, ((pattern ps).assign r).check ss st = some c ∧
      ds.body ps (Object.tuple ss) st = some c ∧
      ((pattern [(ds ps).term id]).assign r2).check [Object.tuple ss] st
        = some { ok := c.ok, state := c.state, evaluated := [0] } := by
  obtain ⟨c, hc⟩ := tuple_unpacker.apply_isSome
    (fun (x : Term σ Object) (y : Object) => evaluate_match x y) ss.length ps ss
    (Nat.le_of_eq h.symm) (Nat.le_refl _) st
  have hbody : ds.body ps (Object.tuple ss) st = some c := by
    simp only [ds.body, ds.decompose, Destructurable.shape, Bool.false_and, Bool.false_eq_true,
      if_false, if_true, h, ge_iff_le, le_refl]
    exact hc
  refine ⟨c, hc, hbody, ?_⟩
  have hev : evaluate_match ((ds ps).term id) (Object.tuple ss) st = (c.ok, c.state) := by
    rw [evaluate_match_predicate]
    simp only [ds, hbody, id]
  simp only [matcher.check, match_pattern.assign, pattern, List.length_singleton,
    tuple_unpacker.apply, List.get?_cons_zero, hev]
  cases hok : c.ok <;> simp

/-- C39, on `pattern(1337, _)` against `(1337, 7)` and `pattern(ds(1337, _))` against
`std::make_tuple(1337, 7)`. -/
theorem k_ary_matcher_agrees_with_ds_witness :
    ∃ c, ((pattern [Object.literal (Value.int 1337), wildcard.underscore Nat Object]).assign
          (ResultExpr.plain Ty.int (Value.int 1))).check
        [Object.scalar (Value.int 1337), Object.scalar (Value.int 7)] 0 = some c ∧
      ds.body [Object.literal (Value.int 1337), wildcard.underscore Nat Object]
        (Object.tuple [Object.scalar (Value.int 1337), Object.scalar (Value.int 7)]) 0
          = some c ∧
      ((pattern [(ds [Object.literal (Value.int 1337),
            wildcard.underscore Nat Object]).term id]).assign
          (ResultExpr.plain Ty.int (Value.int 1))).check
        [Object.tuple [Object.scalar (Value.int 1337), Object.scalar (Value.int 7)]] 0
        = some { ok := c.ok, state := c.state, evaluated := [0] } :=
  k_ary_matcher_agrees_with_ds _ _ _ _ 0 rfl

/-! ## `range` and `in` -/

theorem in_.fold_integers {σ : Type} (cs : List Int) (v : Int) (st : σ) :
    in_.fold (cs.map Term.integer) v st = (decide (v ∈ cs), st) := by
  induction cs with
  | nil => simp [in_.fold]
  | cons c rest ih =>
    have hev : evaluate_match (Term.integer c) v st = (decide (c = v), st) := rfl
    simp only [List.map_cons, in_.fold, hev, ih, List.mem_cons]
    by_cases hcv : c = v
    · simp [hcv]
    · have hvc : ¬ v = c := fun hvc => hcv hvc.symm
      simp [hcv, hvc]

theorem mem_enumeration (lo hi v : Int) : v ∈ enumeration lo hi ↔ lo ≤ v ∧ v ≤ hi := by
  unfold enumeration
  simp only [List.mem_map, List.mem_range]
  constructor
  · rintro ⟨i, hlt, rfl⟩
    omega
  · rintro ⟨h1, h2⟩
    exact ⟨(v - lo).toNat, by omega, by omega⟩

/-- C40. For integers `lo < hi`, `range(lo, hi)` is built, and on every subject `v` it
gives what `in(lo, lo + 1, ..., hi)` gives. -/
theorem range_agrees_with_in_of_enumeration {σ : Type} (ndebug : Bool) (lo hi v : Int)
    (st : σ) (h : lo < hi) :
    ∃ p : predicate σ Int Bool, range ndebug lo hi = some p ∧
      evaluate_match (p.term id) v st
        = evaluate_match ((in_ ((enumeration lo hi).map Term.integer)).term id) v st := by
  refine ⟨{ func_ := fun value_to_test st =>
      (decide (value_to_test ≥ lo) && decide (value_to_test ≤ hi), st) }, ?_, ?_⟩
  · simp [range, expect, h]
  · rw [evaluate_match_predicate, evaluate_match_predicate]
    simp only [in_, in_.fold_integers, id, Prod.mk.injEq, and_true]
    rw [← Bool.decide_and, decide_eq_decide, mem_enumeration]

/-- C40, on `range(3, 7)` and `in(3, 4, 5, 6, 7)` with the subject 5. -/
theorem range_agrees_with_in_of_enumeration_witness :
    ∃ p : predicate Nat Int Bool, range false 3 7 = some p ∧
      evaluate_match (p.term id) 5 0
        = evaluate_match ((in_ ((enumeration 3 7).map Term.integer)).term id) 5 0 :=
  range_agrees_with_in_of_enumeration false 3 7 5 0 (by decide)

/-! ## Arms after an arm of wildcards -/

theorem matcher.check_all_wildcards {σ S V : Type} [StringLike S] (w : matcher σ S V)
    (values : List S) (st : σ)
    (hw : w.args_ = List.replicate values.length (wildcard.underscore σ S)) :
    ∃ c, w.check values st = some c ∧ c.ok = true ∧ c.state = st := by
  have hx : ∀ (i : Nat) (x : Term σ S), w.args_.get? i = some x → x = wildcard.underscore σ S := by
    intro i x hx
    rw [hw, List.get?_eq_some] at hx
    obtain ⟨_, hx⟩ := hx
    simp only [List.get_eq_getElem, List.getElem_replicate] at hx
    exact hx.symm
  obtain ⟨c, hc, hcs, hco⟩ := tuple_unpacker.apply_read_only
    (fun (x : Term σ S) (y : S) => evaluate_match x y) values.length w.args_ values st
    (by rw [hw]; simp) (Nat.le_refl _)
    (by
      intro i x y _ hxi _
      rw [hx i x hxi]
      rfl)
  refine ⟨c, hc, hco.2 ?_, hcs⟩
  intro i x y _ hxi _
  rw [hx i x hxi]
  rfl

theorem match_helper.fold_dead_after_match {σ S V α : Type} [StringLike S]
    (invoke : matcher σ S V → List S → α → σ → Invoked σ α) (ex : List S)
    (pre : List (matcher σ S V)) (w : matcher σ S V) (post : List (matcher σ S V))
    (hw : ∀ st, ∃ c, w.check ex st = some c ∧ c.ok = true)
    (i : Nat) (result : α) (st : σ) :
    match_helper.fold invoke ex i (pre ++ w :: post) result st
      = match_helper.fold invoke ex i (pre ++ [w]) result st := by
  induction pre generalizing i st with
  | nil =>
    obtain ⟨c, hc, hok⟩ := hw st
    have hc2 : match_expressions w ex st = some c := hc
    simp only [List.nil_append, match_helper.fold, hc2, hok, if_true]
  | cons m ms ih =>
    rw [List.cons_append, List.cons_append, match_helper.fold, match_helper.fold]
    cases hc : match_expressions m ex st with
    | none => rfl
    | some c =>
      by_cases hok : c.ok = true
      · simp only [hok, if_true]
      · simp only [hok, Bool.false_eq_true, if_false]
        rw [ih]

/-- C37. With the result type held fixed, the arms declared after an arm whose
pattern terms are all wildcards are dead: the call with them and the call without
them both return, and with the same outcome, that is the same returned value, the
same state and the same evaluations and invocations. -/
theorem arms_after_wildcard_arm_are_dead {σ S V : Type} [StringLike S] (env : TypeEnv V)
    (h : match_helper S) (pre : List (matcher σ S V)) (w : matcher σ S V)
    (post : List (matcher σ S V)) (st : σ)
    (harity : ∀ a ∈ pre ++ w :: post, a.capture_count = h.expressions_.length)
    (hw : w.args_ = List.replicate h.expressions_.length (wildcard.underscore σ S))
    (hR : match_helper.ReturnType env h (pre ++ [w])
      = match_helper.ReturnType env h (pre ++ w :: post)) :
    ∃ out, match_helper.call env h (pre ++ w :: post) st = some out ∧
      match_helper.call env h (pre ++ [w]) st = some out := by
  have harity2 : ∀ a ∈ pre ++ [w], a.capture_count = h.expressions_.length := by
    intro a ha
    apply harity
    rcases List.mem_append.1 ha with ha | ha
    · exact List.mem_append_left _ ha
    · exact List.mem_append_right _ (List.mem_cons.2 (Or.inl (List.mem_singleton.1 ha)))
  have hreq := (requires_clause_matchers h.expressions_.length (pre ++ w :: post)).2
    ⟨by simp, harity⟩
  have hreq2 := (requires_clause_matchers h.expressions_.length (pre ++ [w])).2
    ⟨by simp, harity2⟩
  have hwm : ∀ s : σ, ∃ c, w.check h.expressions_ s = some c ∧ c.ok = true := by
    intro s
    obtain ⟨c, hc, hok, _⟩ := matcher.check_all_wildcards w h.expressions_ s hw
    exact ⟨c, hc, hok⟩
  unfold match_helper.call
  rw [if_pos hreq, if_pos hreq2, hR]
  by_cases hmode : match_helper.ReturnType env h (pre ++ w :: post) = Ty.not_found_t
  · obtain ⟨r, hr⟩ := match_helper.fold_isSome invoke_expressions h.expressions_
      (pre ++ w :: post) harity 0 () st
    rw [if_pos hmode, if_pos hmode,
      ← match_helper.fold_dead_after_match invoke_expressions h.expressions_ pre w post hwm, hr]
    exact ⟨_, rfl, rfl⟩
  · obtain ⟨r, hr⟩ := match_helper.fold_isSome
      (invoke_result_expressions env (match_helper.ReturnType env h (pre ++ w :: post)))
      h.expressions_ (pre ++ w :: post) harity 0 none st
    rw [if_neg hmode, if_neg hmode,
      ← match_helper.fold_dead_after_match
        (invoke_result_expressions env (match_helper.ReturnType env h (pre ++ w :: post)))
        h.expressions_ pre w post hwm, hr]
    exact ⟨_, rfl, rfl⟩

/-- C37, on `match(7)(pattern(10) = 1, pattern(_) = 2, pattern(7) = 3)`: the third
arm can be deleted. -/
theorem arms_after_wildcard_arm_are_dead_witness :
    ∃ out, match_helper.call (TypeEnv.uniform Value) (match_ [Value.int 7])
        ([example_value_arm 10 1]
          ++ (pattern [wildcard.underscore Nat Value]).assign
              (ResultExpr.plain Ty.int (Value.int 2))
            :: [example_value_arm 7 3]) 0 = some out ∧
      match_helper.call (TypeEnv.uniform Value) (match_ [Value.int 7])
        ([example_value_arm 10 1]
          ++ [(pattern [wildcard.underscore Nat Value]).assign
              (ResultExpr.plain Ty.int (Value.int 2))]) 0 = some out :=
  arms_after_wildcard_arm_are_dead (TypeEnv.uniform Value) (match_ [Value.int 7])
    [example_value_arm 10 1]
    ((pattern [wildcard.underscore Nat Value]).assign (ResultExpr.plain Ty.int (Value.int 2)))
    [example_value_arm 7 3] 0
    (by
      intro a ha
      simp only [List.cons_append, List.nil_append, List.mem_cons, List.mem_singleton,
        List.not_mem_nil, or_false] at ha
      rcases ha with rfl | rfl | rfl <;> rfl)
    rfl rfl

theorem invoke_result_expressions_isSome {σ S V : Type} (env : TypeEnv V) (R : Ty)
    (m : matcher σ S V) (ex : List S) (result : Option V) (st : σ)
    (hvalue : (m.get Qualifier.lvalue ex).type ≠ Ty.void) :
    ∃ v, (invoke_result_expressions env R m ex result st).result = some v := by
  have hrun : ∃ v st1, (m.get Qualifier.rvalue ex).run st = (some v, st1) := by
    have hvalue2 : (m.get Qualifier.rvalue ex).type ≠ Ty.void := hvalue
    cases hg : m.get Qualifier.rvalue ex with
    | action run => rw [hg] at hvalue2; exact absurd rfl hvalue2
    | computed t run => exact ⟨_, _, rfl⟩
    | stored t v => exact ⟨_, _, rfl⟩
  obtain ⟨v, st1, hv⟩ := hrun
  unfold invoke_result_expressions
  rw [if_neg hvalue]
  simp only [hv]
  exact ⟨_, rfl⟩

theorem match_helper.fold_total_with_wildcard {σ S V : Type} [StringLike S] (env : TypeEnv V)
    (R : Ty) (ex : List S) (pre : List (matcher σ S V)) (w : matcher σ S V)
    (post : List (matcher σ S V))
    (harity : ∀ a ∈ pre ++ w :: post, a.capture_count = ex.length)
    (hw : w.args_ = List.replicate ex.length (wildcard.underscore σ S))
    (hvalue : ∀ a ∈ pre ++ w :: post, (a.get Qualifier.lvalue ex).type ≠ Ty.void)
    (i : Nat) (result : Option V) (st : σ) :
    ∃ r v, match_helper.fold (invoke_result_expressions env R) ex i (pre ++ w :: post)
        result st = some r ∧ r.result = some v := by
  induction pre generalizing i st with
  | nil =>
    obtain ⟨c, hc, hok, _⟩ := matcher.check_all_wildcards w ex st hw
    have hc2 : match_expressions w ex st = some c := hc
    obtain ⟨v, hv⟩ := invoke_result_expressions_isSome env R w ex result c.state
      (hvalue w (by simp))
    simp only [List.nil_append, match_helper.fold, hc2, hok, if_true]
    exact ⟨_, v, rfl, hv⟩
  | cons m ms ih =>
    obtain ⟨c, hc⟩ := m.check_isSome ex (Nat.le_of_eq (harity m (by simp)).symm) st
    have hc2 : match_expressions m ex st = some c := hc
    rw [List.cons_append, match_helper.fold]
    simp only [hc2]
    by_cases hok : c.ok = true
    · obtain ⟨v, hv⟩ := invoke_result_expressions_isSome env R m ex result c.state
        (hvalue m (by simp))
      simp only [hok, if_true]
      exact ⟨_, v, rfl, hv⟩
    · obtain ⟨r, v, hr, hv⟩ := ih
        (fun a ha => harity a (by rw [List.cons_append]; exact List.mem_cons_of_mem _ ha))
        (fun a ha => hvalue a (by rw [List.cons_append]; exact List.mem_cons_of_mem _ ha))
        (i + 1) c.state
      simp only [hok, Bool.false_eq_true, if_false, hr]
      exact ⟨_, v, rfl, hv⟩

/-- C38. When every arm produces a value of a type other than `void`, one arm has
only wildcards as pattern terms, and the call is in value mode, the call returns an
optional that holds a value. -/
theorem wildcard_arm_makes_result_non_empty {σ S V : Type} [StringLike S] (env : TypeEnv V)
    (h : match_helper S) (pre : List (matcher σ S V)) (w : matcher σ S V)
    (post : List (matcher σ S V)) (st : σ)
    (harity : ∀ a ∈ pre ++ w :: post, a.capture_count = h.expressions_.length)
    (hw : w.args_ = List.replicate h.expressions_.length (wildcard.underscore σ S))
    (hvalue : ∀ a ∈ pre ++ w :: post,
      (a.get Qualifier.lvalue h.expressions_).type ≠ Ty.void)
    (hmode : match_helper.ReturnType env h (pre ++ w :: post) ≠ Ty.not_found_t) :
    ∃ out v, match_helper.call env h (pre ++ w :: post) st = some out ∧
      out.returned = Returned.optional (some v) := by
  have hreq := (requires_clause_matchers h.expressions_.length (pre ++ w :: post)).2
    ⟨by simp, harity⟩
  obtain ⟨r, v, hr, hv⟩ := match_helper.fold_total_with_wildcard env
    (match_helper.ReturnType env h (pre ++ w :: post)) h.expressions_ pre w post harity hw
    hvalue 0 none st
  refine ⟨{ returned := Returned.optional r.result, state := r.state, trace := r.trace }, v,
    ?_, by rw [hv]⟩
  unfold match_helper.call
  rw [if_pos hreq, if_neg hmode, hr]

/-- C38, on `match(7)(pattern(10) = 1, pattern(_) = 2, pattern(7) = 3)`. -/
theorem wildcard_arm_makes_result_non_empty_witness :
    ∃ out v, match_helper.call (TypeEnv.uniform Value) (match_ [Value.int 7])
        ([example_value_arm 10 1]
          ++ (pattern [wildcard.underscore Nat Value]).assign
              (ResultExpr.plain Ty.int (Value.int 2))
            :: [example_value_arm 7 3]) 0 = some out ∧
      out.returned = Returned.optional (some v) :=
  wildcard_arm_makes_result_non_empty (TypeEnv.uniform Value) (match_ [Value.int 7])
    [example_value_arm 10 1]
    ((pattern [wildcard.underscore Nat Value]).assign (ResultExpr.plain Ty.int (Value.int 2)))
    [example_value_arm 7 3] 0
    (by
      intro a ha
      simp only [List.cons_append, List.nil_append, List.mem_cons, List.mem_singleton,
        List.not_mem_nil, or_false] at ha
      rcases ha with rfl | rfl | rfl <;> rfl)
    rfl
    (by
      intro a ha
      simp only [List.cons_append, List.nil_append, List.mem_cons, List.mem_singleton,
        List.not_mem_nil, or_false] at ha
      rcases ha with rfl | rfl | rfl <;> decide)
    (by decide)

/-! ## A match against a chain of tests -/

theorem std_common_type_from_replicate (long_bits : Nat) (T : Ty) (n : Nat) :
    std_common_type_from long_bits T (List.replicate n T) = some T := by
  induction n with
  | zero => rfl
  | succ n ih => simp [List.replicate_succ, std_common_type_from, std_common_type_pair, ih]

theorem integral_conversion_int (r : Int) (h : -2 ^ 31 ≤ r ∧ r < 2 ^ 31) :
    integral_conversion false 32 r = r := by
  obtain ⟨h1, h2⟩ := h
  simp only [integral_conversion, Bool.false_eq_true, if_false]
  norm_num at h1 h2 ⊢
  omega

theorem match_helper.fold_int_arms {σ : Type} (env : TypeEnv Value) (R : Ty) (x : Int)
    (term : Int → Term σ Int) (test : Int → Int → Bool)
    (hterm : ∀ c (st : σ), evaluate_match (term c) x st = (test x c, st))
    (arms : List (Int × Int)) (d : Int)
    (hconv : ∀ a ∈ arms, env.convert Ty.int R (Value.int a.2) = Value.int a.2)
    (i : Nat) (st : σ) :
    ∃ r, match_helper.fold (invoke_result_expressions env R) [x] i
        (arms.map (fun a =>
          (pattern [term a.1]).assign (ResultExpr.plain Ty.int (Value.int a.2)))) none st
        = some r ∧ r.state = st ∧
      value_or r.result (Value.int d) = Value.int (if_else_chain test x arms d) := by
  induction arms generalizing i with
  | nil => exact ⟨_, rfl, rfl, rfl⟩
  | cons a rest ih =>
    obtain ⟨c, r⟩ := a
    have hcheck : match_expressions
        ((pattern [term c]).assign (ResultExpr.plain Ty.int (Value.int r)) :
          matcher σ Int Value) [x] st
        = some { ok := test x c, state := st, evaluated := [0] } := by
      simp only [match_expressions, matcher.check, match_pattern.assign, pattern,
        List.length_singleton, tuple_unpacker.apply, List.get?_cons_zero, hterm]
      cases test x c <;> rfl
    rw [List.map_cons, match_helper.fold]
    simp only [hcheck]
    by_cases ht : test x c = true
    · simp only [ht, if_true]
      refine ⟨_, rfl, rfl, ?_⟩
      have hc := hconv (c, r) (List.mem_cons_self _ _)
      simp only at hc
      simp only [invoke_result_expressions, matcher.get, match_pattern.assign, pattern,
        ResultExpr.plain, Got.type, Got.run, if_false, hc, value_or, if_else_chain, ht, if_true,
        reduceCtorEq]
    · obtain ⟨r2, hr2, hst, hval⟩ := ih
        (fun a ha => hconv a (List.mem_cons_of_mem _ ha)) (i + 1)
      simp only [ht, Bool.false_eq_true, if_false, hr2]
      refine ⟨_, rfl, hst, ?_⟩
      simp only [if_else_chain, ht, Bool.false_eq_true, if_false]
      exact hval

theorem match_helper.call_int_arms {σ : Type} (long_bits : Nat) (x : Int)
    (term : Int → Term σ Int) (test : Int → Int → Bool)
    (hterm : ∀ c (st : σ), evaluate_match (term c) x st = (test x c, st))
    (arms : List (Int × Int)) (d : Int) (st : σ) (hne : arms ≠ [])
    (hint : ∀ a ∈ arms, -2 ^ 31 ≤ a.2 ∧ a.2 < 2 ^ 31) :
    ∃ out o, match_helper.call (TypeEnv.integers long_bits) (match_ [x])
        (arms.map (fun a =>
          (pattern [term a.1]).assign (ResultExpr.plain Ty.int (Value.int a.2)))) st
        = some out ∧
      out.returned = Returned.optional o ∧ out.state = st ∧
      value_or o (Value.int d) = Value.int (if_else_chain test x arms d) := by
  have hreq := (requires_clause_matchers (σ := σ) (S := Int) (V := Value) 1
    (arms.map (fun a =>
      (pattern [term a.1]).assign (ResultExpr.plain Ty.int (Value.int a.2))))).2
    ⟨by simpa using hne, by
      intro a ha
      obtain ⟨b, _, rfl⟩ := List.mem_map.1 ha
      rfl⟩
  have hR : match_helper.ReturnType (TypeEnv.integers long_bits) (match_ [x])
      (arms.map (fun a =>
        (pattern [term a.1]).assign (ResultExpr.plain Ty.int (Value.int a.2)))) = Ty.int := by
    have htypes : (arms.map (fun a =>
        (pattern [term a.1]).assign (ResultExpr.plain Ty.int (Value.int a.2)))).map
          (fun m => (test_expressions m (match_ [x]).expressions_).type)
        = List.replicate arms.length Ty.int := by
      rw [List.map_map, List.eq_replicate_iff]
      refine ⟨by simp, ?_⟩
      intro t ht
      obtain ⟨b, _, rfl⟩ := List.mem_map.1 ht
      rfl
    unfold match_helper.ReturnType non_void_common_type_t
    rw [htypes, non_void_common_type_of_no_void _ (fun t ht => by
      rw [List.eq_of_mem_replicate ht]; decide), List.reverse_replicate]
    cases hl : arms.length with
    | zero => exact absurd (List.length_eq_zero.1 hl) hne
    | succ n =>
      simp only [List.replicate_succ, common_type, common_type_or, TypeEnv.integers,
        std_common_type_from_replicate]
  obtain ⟨r, hr, hst, hval⟩ := match_helper.fold_int_arms (TypeEnv.integers long_bits) Ty.int x
    term test hterm arms d
    (by
      intro a ha
      simp only [TypeEnv.integers, Ty.is_integer, if_true, Ty.is_unsigned, Ty.bits,
        integral_conversion_int a.2 (hint a ha)])
    0 st
  refine ⟨{ returned := Returned.optional r.result, state := r.state, trace := r.trace },
    r.result, ?_, rfl, hst, hval⟩
  unfold match_helper.call
  simp only [match_] at hreq hR hr ⊢
  rw [List.length_singleton, if_pos hreq, hR, if_neg (by decide), hr]

/-- C34. For every integer subject `x`, every non-empty list of arms
`pattern(c1) = r1, ..., pattern(cn) = rn` with `int` results and every `d`,
`match(x)(...).value_or(d)` is the value of the chain
`if (x == c1) r1; else if (x == c2) r2; ... else d`, and the state is left as it is; and
the same holds for the arms `pattern(_x < ci) = ri` and the chain of tests `x < ci`. -/
theorem match_refines_if_else_chain {σ : Type} (long_bits : Nat) (x : Int)
    (arms : List (Int × Int)) (d : Int) (st : σ) (hne : arms ≠ [])
    (hint : ∀ a ∈ arms, -2 ^ 31 ≤ a.2 ∧ a.2 < 2 ^ 31) :
    (∃ out o, match_helper.call (TypeEnv.integers long_bits) (match_ [x]) (literal_arms arms) st
        = some out ∧
      out.returned = Returned.optional o ∧ out.state = st ∧
      value_or o (Value.int d)
        = Value.int (if_else_chain (fun x c => decide (x = c)) x arms d)) ∧
    (∃ out o, match_helper.call (TypeEnv.integers long_bits) (match_ [x]) (less_than_arms arms) st
        = some out ∧
      out.returned = Returned.optional o ∧ out.state = st ∧
      value_or o (Value.int d)
        = Value.int (if_else_chain (fun x c => decide (x < c)) x arms d)) := by
  constructor
  · exact match_helper.call_int_arms long_bits x Term.integer (fun x c => decide (x = c))
      (by
        intro c s
        simp only [evaluate_match, Term.integer, StringLike.string_view, eq_comm])
      arms d st hne hint
  · exact match_helper.call_int_arms long_bits x
      (fun c => (predicate.relational RelOp.lt _x c).term id) (fun x c => decide (x < c))
      (by
        intro c s
        rfl)
      arms d st hne hint

/-- C34, on the arms and subjects of the benchmark: `pattern(1) = 1, pattern(2) = 20,
pattern(3) = 300, pattern(4) = 4000` with `value_or(0)`, for the subject 3. -/
theorem match_refines_if_else_chain_witness :
    (∃ out o, match_helper.call (TypeEnv.integers 64) (match_ [(3 : Int)])
        (literal_arms [(1, 1), (2, 20), (3, 300), (4, 4000)]) (0 : Nat) = some out ∧
      out.returned = Returned.optional o ∧ out.state = 0 ∧
      value_or o (Value.int 0)
        = Value.int (if_else_chain (fun x c => decide (x = c)) 3
            [(1, 1), (2, 20), (3, 300), (4, 4000)] 0)) ∧
    (∃ out o, match_helper.call (TypeEnv.integers 64) (match_ [(3 : Int)])
        (less_than_arms [(1, 1), (2, 20), (3, 300), (4, 4000)]) (0 : Nat) = some out ∧
      out.returned = Returned.optional o ∧ out.state = 0 ∧
      value_or o (Value.int 0)
        = Value.int (if_else_chain (fun x c => decide (x < c)) 3
            [(1, 1), (2, 20), (3, 300), (4, 4000)] 0)) :=
  match_refines_if_else_chain 64 3 [(1, 1), (2, 20), (3, 300), (4, 4000)] 0 0 (by simp)
    (by
      intro a ha
      simp only [List.mem_cons, List.mem_singleton, List.not_mem_nil, or_false] at ha
      rcases ha with rfl | rfl | rfl | rfl <;> constructor <;> norm_num)

end ptm
